import Mathlib

/-!
# Verification of the letta-lite agent runtime core

A shallow embedding, in Lean 4, of the core of the `letta-lite` Rust
repository (`src/core/src/{memory,message,context,tool,agent,af}.rs`),
together with theorems settling the specification claims about it.

Modelling conventions:

* A Rust `String` is a list of Unicode scalar values (`List Char`); the
  UTF-8 validity that the Rust type guarantees is thereby built in.
  Byte-level operations (`len()`, byte slicing, `is_char_boundary`) are
  computed from the scalars via their UTF-8 sizes: dropping or taking a
  byte prefix succeeds exactly when the byte index falls on a scalar
  boundary, and a slice at a non-boundary index models a Rust panic.
* Fallible operations return `RustResult`, whose `panic` constructor
  models a Rust panic (e.g. out-of-bounds or non-boundary slicing) and
  whose `err` constructor carries the `LettaError` taxonomy.
* Hash maps keyed by strings (`memory blocks`, the tool registry) are
  modelled as association lists with replace-or-append insert; no claim
  depends on iteration order (the spec leaves it undefined).
* Timestamps (`Utc::now()`) and UUIDs are modelled as abstract values
  supplied by the caller; the JSON text layer of `serde_json` is
  modelled as the `Json` value tree (pretty-printing followed by parsing
  is the identity on that tree).
* The LLM provider trait object is modelled as an arbitrary function
  from the call index to a completion result; a sequential loop that is
  deterministic given the provider's answers is fully covered by this.
-/

/-- A Rust `String`: the sequence of Unicode scalar values of a valid
UTF-8 string. -/
abbrev Str := List Char

/-- Shorthand for turning a Lean string literal into the model's string
representation. -/
def str (s : String) : Str := s.data

/-- Number of bytes of the UTF-8 encoding of one scalar value. -/
def charSize (c : Char) : Nat :=
  if c.toNat < 0x80 then 1
  else if c.toNat < 0x800 then 2
  else if c.toNat < 0x10000 then 3
  else 4

/-- Rust `str::len`: the length in bytes of the UTF-8 encoding. -/
def byteLen (s : Str) : Nat := (s.map charSize).sum

/-- Drop the first `n` bytes of a string (Rust `&s[n..]`).  Returns
`none` when `n` is not a character boundary (or exceeds the length), in
which case the Rust slice panics. -/
def dropBytes : Str → Nat → Option Str
  | s, 0 => some s
  | [], _ + 1 => none
  | c :: cs, n + 1 =>
    if charSize c ≤ n + 1 then dropBytes cs (n + 1 - charSize c) else none

/-- Take the first `n` bytes of a string (Rust `&s[..n]`).  Returns
`none` when `n` is not a character boundary (or exceeds the length), in
which case the Rust slice panics. -/
def takeBytes : Str → Nat → Option Str
  | _, 0 => some []
  | [], _ + 1 => none
  | c :: cs, n + 1 =>
    if charSize c ≤ n + 1 then
      (takeBytes cs (n + 1 - charSize c)).map (c :: ·)
    else none

/-- The closed error taxonomy of `src/core/src/error.rs` (the variants
the core components construct). -/
inductive LettaError where
  | Storage (msg : Str)
  | Serialization (msg : Str)
  | Provider (msg : Str)
  | ToolExecution (msg : Str)
  | Memory (msg : Str)
  | ContextOverflow (current max : Nat)
  | AgentNotFound (msg : Str)
  | InvalidConfig (msg : Str)
  | Sync (msg : Str)
  | Unknown (msg : Str)
  deriving DecidableEq, Repr

/-- Outcome of running a piece of Rust code: a value, a typed error
(`Result::Err`), or a panic. -/
inductive RustResult (α : Type) where
  | ok (val : α)
  | err (e : LettaError)
  | panic
  deriving DecidableEq, Repr

/-- ASCII decimal digits of a natural number, as used by `format!("{}", n)`. -/
def natStr (n : Nat) : Str := (toString n).data

/-! ## Memory blocks (`src/core/src/memory.rs`) -/

/-- `MemoryBlock` of `memory.rs`: label, description, UTF-8 value and a
byte limit. -/
structure MemoryBlock where
  label : Str
  description : Str
  value : Str
  limit : Nat
  deriving DecidableEq, Repr

/-- `default_limit()` in `memory.rs`. -/
def defaultLimit : Nat := 2000

/-- `MemoryBlock::new`: a fresh block with the default limit. -/
def MemoryBlock.new (label description value : Str) : MemoryBlock :=
  ⟨label, description, value, defaultLimit⟩

/-- `MemoryBlock::with_limit`. -/
def MemoryBlock.with_limit (b : MemoryBlock) (limit : Nat) : MemoryBlock :=
  { b with limit := limit }

/-- `MemoryBlock::replace`: reject values longer than the limit,
otherwise overwrite the value. -/
def MemoryBlock.replace (b : MemoryBlock) (newValue : Str) :
    RustResult MemoryBlock :=
  if byteLen newValue > b.limit then
    .err (.Memory (str "Value exceeds limit: " ++ natStr (byteLen newValue) ++
      str " > " ++ natStr b.limit))
  else
    .ok { b with value := newValue }

/-- `MemoryBlock::append`: concatenate `value + "\n" + text`; when the
result exceeds the limit, drop `len - limit` bytes from the front via a
byte slice.  The Rust code slices `new_value[start..]` directly, which
panics when `start` is not a character boundary; `dropBytes` returning
`none` models that panic. -/
def MemoryBlock.append (b : MemoryBlock) (text : Str) : RustResult MemoryBlock :=
  let newValue := b.value ++ '\n' :: text
  if byteLen newValue > b.limit then
    let start := byteLen newValue - b.limit
    match dropBytes newValue start with
    | some v => .ok { b with value := v }
    | none => .panic
  else
    .ok { b with value := newValue }

/-! ## Memory (`Memory`, `ChatMemory`, `BasicMemory`) -/

/-- The two memory flavours of `memory.rs` (`MemoryType`), with the block
map flattened into a label-keyed association list (each block carries its
own key) and the optional Tera template of `ChatMemory` modelled as an
opaque rendering function from the block list. -/
structure Memory where
  isChat : Bool
  blocks : List MemoryBlock
  template : Option (List MemoryBlock → RustResult Str)

/-- The default `persona` block of `ChatMemory::new`. -/
def personaBlock : MemoryBlock :=
  MemoryBlock.new (str "persona") (str "Agent\x27s personality and behavior")
    (str "I am a helpful AI assistant.")

/-- The default `human` block of `ChatMemory::new`. -/
def humanBlock : MemoryBlock :=
  MemoryBlock.new (str "human") (str "Information about the user")
    (str "User preferences and context will be stored here.")

/-- `Memory::new_chat`: chat memory seeded with the `persona` and `human`
blocks. -/
def Memory.new_chat : Memory := ⟨true, [personaBlock, humanBlock], none⟩

/-- `Memory::new_basic`: empty basic memory. -/
def Memory.new_basic : Memory := ⟨false, [], none⟩

/-- `Memory::get_block`: look a block up by label. -/
def Memory.get_block (m : Memory) (label : Str) : Option MemoryBlock :=
  m.blocks.find? (fun b => b.label = label)

/-- `HashMap::insert` on the block map: replace the block with the given
label in place, or add the entry when absent. -/
def Memory.insertBlock (m : Memory) (label : Str) (b : MemoryBlock) : Memory :=
  if (m.blocks.find? (fun c => c.label = label)).isSome then
    { m with blocks := m.blocks.map (fun c => if c.label = label then b else c) }
  else
    { m with blocks := m.blocks ++ [b] }

/-- `Memory::set_block`: replace the value of an existing block (which
checks the limit), or create the block on first use with description
`"User-defined block"` and the default limit — the creation arm performs
no limit check, exactly as in the source. -/
def Memory.set_block (m : Memory) (label value : Str) : RustResult Memory :=
  match m.blocks.find? (fun b => b.label = label) with
  | some b =>
    match b.replace value with
    | .ok b' =>
      let bs := m.blocks.map (fun c => if c.label = label then b' else c)
      .ok { m with blocks := bs }
    | .err e => .err e
    | .panic => .panic
  | none =>
    let bs := m.blocks ++ [MemoryBlock.new label (str "User-defined block") value]
    .ok { m with blocks := bs }

/-- `Memory::append_block`: append to an existing block, or fail with a
`Memory` error when the label is unknown. -/
def Memory.append_block (m : Memory) (label text : Str) : RustResult Memory :=
  match m.blocks.find? (fun b => b.label = label) with
  | some b =>
    match b.append text with
    | .ok b' =>
      let bs := m.blocks.map (fun c => if c.label = label then b' else c)
      .ok { m with blocks := bs }
    | .err e => .err e
    | .panic => .panic
  | none => .err (.Memory (str "Block \x27" ++ label ++ str "\x27 not found"))

/-- `Memory::render_default`: the literal `<label_block>…</label_block>`
form for each block, in map order. -/
def Memory.render_default (m : Memory) : Str :=
  m.blocks.foldl (fun acc b =>
    acc ++ str "<" ++ b.label ++ str "_block>\n" ++ b.value ++
      str "\n</" ++ b.label ++ str "_block>\n\n") []

/-- `Memory::render`: a chat memory with a template renders through it
(failures surface as `Memory` errors from the opaque template function);
otherwise the default rendering. -/
def Memory.render (m : Memory) : RustResult Str :=
  match m.isChat, m.template with
  | true, some t => t m.blocks
  | _, _ => .ok m.render_default

/-- `Memory::token_estimate`: sum of `len(value)/4` over all blocks. -/
def Memory.token_estimate (m : Memory) : Nat :=
  (m.blocks.map (fun b => byteLen b.value / 4)).sum

/-- The `len(value) ≤ limit` invariant for one block. -/
def BlockOk (b : MemoryBlock) : Prop := byteLen b.value ≤ b.limit

/-- The spec's memory invariant: every block's value fits its limit. -/
def MemOk (m : Memory) : Prop := ∀ b ∈ m.blocks, BlockOk b

instance (b : MemoryBlock) : Decidable (BlockOk b) := by
  unfold BlockOk; infer_instance

instance (m : Memory) : Decidable (MemOk m) := by
  unfold MemOk; infer_instance


/-! ## JSON values (`serde_json::Value`) -/

/-- `serde_json::Value`, with numbers restricted to the integers the core
actually stores (sizes, counts, modelled timestamps; floats are carried
through opaquely as their numeric value).  Objects are association lists
in emission order. -/
inductive Json where
  | null
  | bool (b : Bool)
  | num (n : Int)
  | str (s : Str)
  | arr (elems : List Json)
  | obj (fields : List (Str × Json))

/-- `Value::get` followed by `as_str`: a string field of a JSON object. -/
def Json.getStr (j : Json) (key : Str) : Option Str :=
  match j with
  | .obj fields =>
    match fields.lookup key with
    | some (.str s) => some s
    | _ => none
  | _ => none

/-- `Value::get` followed by `as_u64`: a non-negative integer field. -/
def Json.getNat (j : Json) (key : Str) : Option Nat :=
  match j with
  | .obj fields =>
    match fields.lookup key with
    | some (.num n) => if n < 0 then none else some n.toNat
    | _ => none
  | _ => none

/-! ## Messages and the buffer (`src/core/src/message.rs`) -/

/-- `MessageRole`. -/
inductive MessageRole where
  | System
  | User
  | Assistant
  | Tool
  deriving DecidableEq, Repr

/-- `ToolCallInfo`: a recorded outgoing tool call on an assistant
message. -/
structure ToolCallInfo where
  id : Str
  name : Str
  arguments : Json

/-- `Message`: id and timestamps are abstract values chosen by the
caller (`Uuid::new_v4()` / `Utc::now()` in the source). -/
structure Message where
  id : Str
  role : MessageRole
  content : Str
  tool_calls : Option (List ToolCallInfo)
  tool_call_id : Option Str
  timestamp : Nat
  metadata : List (Str × Json)

/-- `Message::system` (fresh id and timestamp abstracted as arguments). -/
def Message.mkSystem (id : Str) (content : Str) (now : Nat) : Message :=
  ⟨id, .System, content, none, none, now, []⟩

/-- `Message::user`. -/
def Message.mkUser (id : Str) (content : Str) (now : Nat) : Message :=
  ⟨id, .User, content, none, none, now, []⟩

/-- `Message::assistant`. -/
def Message.mkAssistant (id : Str) (content : Str) (now : Nat) : Message :=
  ⟨id, .Assistant, content, none, none, now, []⟩

/-- `Message::tool`. -/
def Message.mkTool (id : Str) (tool_call_id : Str) (content : Str) (now : Nat) :
    Message :=
  ⟨id, .Tool, content, none, some tool_call_id, now, []⟩

/-- `Message::with_tool_calls`. -/
def Message.with_tool_calls (m : Message) (calls : List ToolCallInfo) : Message :=
  { m with tool_calls := some calls }

/-- `Message::token_estimate`: `len(content) / 4` (byte length). -/
def Message.token_estimate (m : Message) : Nat := byteLen m.content / 4

/-- `MessageBuffer`: ordered messages with a maximum size. -/
structure MessageBuffer where
  messages : List Message
  max_size : Nat

/-- `MessageBuffer::new`. -/
def MessageBuffer.new (max_size : Nat) : MessageBuffer := ⟨[], max_size⟩

/-- `MessageBuffer::push`: append, then drop from the front while the
length exceeds `max_size`. -/
def MessageBuffer.push (buf : MessageBuffer) (m : Message) : MessageBuffer :=
  let ms := buf.messages ++ [m]
  let ms := ms.drop (ms.length - buf.max_size)
  { buf with messages := ms }

/-- Rust `str::contains` (byte-level substring; for valid UTF-8 this
coincides with scalar-sequence infix). -/
def strContains (s pat : Str) : Bool := decide (pat <:+: s)

/-- Character lowercasing as used by `str::to_lowercase` (the simple
one-to-one mappings; the handful of special multi-char Unicode mappings
are not exercised by anything the core stores). -/
def lowerStr (s : Str) : Str := s.map Char.toLower

/-- `MessageBuffer::search`: case-insensitive substring match over
content, first `limit` hits in buffer order. -/
def MessageBuffer.search (buf : MessageBuffer) (query : Str) (limit : Nat) :
    List Message :=
  (buf.messages.filter (fun m => strContains (lowerStr m.content) (lowerStr query))).take limit

/-! ## Context manager (`src/core/src/context.rs`) -/

/-- `ContextWindow`: the summarization threshold is the fixed `0.8`
everywhere the core constructs one, so it is left implicit and the
ratio test is expressed exactly over the integers. -/
structure ContextWindow where
  max_tokens : Nat
  current_tokens : Nat

/-- `ContextManager::new`. -/
def ContextWindow.new (max_tokens : Nat) : ContextWindow := ⟨max_tokens, 0⟩

/-- `ContextManager::should_summarize`:
`current_tokens / max_tokens ≥ 0.8` (the source computes the ratio in
`f32`; with the core's token counts the comparison agrees with the exact
rational one modelled here). -/
def ContextWindow.should_summarize (w : ContextWindow) : Bool :=
  w.max_tokens * 8 ≤ w.current_tokens * 10

/-- `ContextManager::check_overflow`. -/
def ContextWindow.check_overflow (w : ContextWindow) (additional : Nat) :
    RustResult Unit :=
  let total := w.current_tokens + additional
  if total > w.max_tokens then .err (.ContextOverflow total w.max_tokens)
  else .ok ()

/-- One `<conversation>` line of `build_prompt`, by role. -/
def messageLine (m : Message) : Str :=
  match m.role with
  | .System => str "System: " ++ m.content
  | .User => str "User: " ++ m.content
  | .Assistant => str "Assistant: " ++ m.content
  | .Tool =>
    str "Tool [" ++ (m.tool_call_id.getD (str "unknown")) ++ str "]: " ++ m.content

/-- `ContextManager::build_prompt`: assembles the prompt parts, counts
`len(system_prompt)/4 + memory.token_estimate() + Σ token_estimate` over
the included (most recent `max_messages`) messages, stores the count via
`update_usage` and then calls `check_overflow(0)`.  Returns the joined
prompt together with the updated window. -/
def buildPrompt (w : ContextWindow) (system_prompt : Str) (memory : Memory)
    (messages : List Message) (max_messages : Nat) :
    RustResult (Str × ContextWindow) :=
  match memory.render with
  | .err e => .err e
  | .panic => .panic
  | .ok memoryStr =>
    let included := messages.drop (messages.length - min messages.length max_messages)
    let tokenCount := byteLen system_prompt / 4 + memory.token_estimate +
      (included.map Message.token_estimate).sum
    let parts := [str "System: " ++ system_prompt,
        str "\n<memory>\n" ++ memoryStr ++ str "</memory>",
        str "\n<conversation>"] ++
      included.map messageLine ++ [str "</conversation>"]
    let w' := { w with current_tokens := tokenCount }
    match w'.check_overflow 0 with
    | .ok _ => .ok ((parts.intersperse (str "\n")).flatten, w')
    | .err e => .err e
    | .panic => .panic

/-- One summary bullet of `summarize_messages`: contents longer than 100
bytes are truncated by the byte slice `&content[..100]` (which panics off
a character boundary) with `"..."` appended. -/
def summaryBullet (m : Message) : Option Str :=
  let roleStr := match m.role with
    | .User => str "User"
    | .Assistant => str "Assistant"
    | _ => str "Other"
  if byteLen m.content > 100 then
    match takeBytes m.content 100 with
    | some t => some (str "- " ++ roleStr ++ str ": " ++ t ++ str "...\n")
    | none => none
  else
    some (str "- " ++ roleStr ++ str ": " ++ m.content ++ str "\n")

/-- `ContextManager::summarize_messages`: header plus one bullet per
older (all but the last `keep_recent`) user/assistant message; `none`
models the truncation panic. -/
def summarizeMessages (messages : List Message) (keep_recent : Nat) :
    Option Str :=
  let older := messages.take (messages.length - keep_recent)
  let relevant := older.filter
    (fun m => m.role = .User ∨ m.role = .Assistant)
  (relevant.foldlM (fun acc m => (summaryBullet m).map (acc ++ ·))
    (str "Previous conversation summary:\n"))


/-! ## JSON serialization (`serde_json::to_string`) -/

/-- String escaping for JSON emission (the escapes the core's payloads
can contain). -/
def jsonEscape (s : Str) : Str :=
  s.flatMap (fun c =>
    if c = '"' then str "\\\""
    else if c = '\\' then str "\\\\"
    else if c = '\n' then str "\\n"
    else if c = '\t' then str "\\t"
    else if c = '\r' then str "\\r"
    else [c])

mutual

/-- Compact JSON emission (`serde_json::to_string`), used for the content
of tool-result messages. -/
def Json.serialize : Json → Str
  | .null => str "null"
  | .bool true => str "true"
  | .bool false => str "false"
  | .num n => (toString n).data
  | .str s => '"' :: (jsonEscape s ++ ['"'])
  | .arr xs => '[' :: ((serializeElems xs).intersperse (str ",")).flatten ++ [']']
  | .obj fs =>
    Char.ofNat 123 ::
      ((serializeFields fs).intersperse (str ",")).flatten ++ [Char.ofNat 125]

/-- Serialized forms of the elements of a JSON array. -/
def serializeElems : List Json → List Str
  | [] => []
  | x :: xs => Json.serialize x :: serializeElems xs

/-- Serialized `"key":value` forms of the fields of a JSON object. -/
def serializeFields : List (Str × Json) → List Str
  | [] => []
  | (k, v) :: fs =>
    ('"' :: (jsonEscape k ++ str "\":" ) ++ Json.serialize v) :: serializeFields fs

end

/-! ## Agent state (`src/core/src/agent.rs`) -/

/-- `AgentConfig`.  The `f32` sampling temperature is carried opaquely
(as an uninterpreted numeric value); no claim inspects it. -/
structure AgentConfig where
  name : Str
  system_prompt : Str
  model : Str
  max_messages : Nat
  max_context_tokens : Nat
  temperature : Int
  tools_enabled : Bool

/-- `AgentConfig::default()`. -/
def AgentConfig.default : AgentConfig :=
  ⟨str "assistant", str "You are a helpful AI assistant with persistent memory.",
    str "toy", 100, 8192, 7, true⟩

/-- `AgentState` (id and creation time abstracted as arguments of the
constructor). -/
structure AgentState where
  id : Str
  name : Str
  created_at : Nat
  updated_at : Nat
  memory : Memory
  messages : MessageBuffer
  archival_entries : List Json
  metadata : Json

/-- `AgentState::new`: fresh chat memory, a 100-message buffer, empty
archival list and `{}` metadata. -/
def AgentState.new (id : Str) (name : Str) (now : Nat) : AgentState :=
  ⟨id, name, now, now, Memory.new_chat, MessageBuffer.new 100, [], .obj []⟩

/-! ## Tool registry and built-in handlers (`src/core/src/tool.rs`) -/

/-- `ToolCall`. -/
structure ToolCall where
  id : Str
  name : Str
  arguments : Json

/-- `ToolResult`. -/
structure ToolResult where
  success : Bool
  result : Json
  request_heartbeat : Bool
  error : Option Str

/-- `ToolResult::success`. -/
def ToolResult.mkSuccess (result : Json) : ToolResult := ⟨true, result, false, none⟩

/-- `ToolResult::with_heartbeat`. -/
def ToolResult.with_heartbeat (r : ToolResult) : ToolResult :=
  { r with request_heartbeat := true }

/-- `MemoryReplaceHandler::execute`. -/
def memoryReplaceRun (args : Json) (st : AgentState) :
    RustResult (ToolResult × AgentState) :=
  match args.getStr (str "label") with
  | none => .err (.ToolExecution (str "Missing \x27label\x27 parameter"))
  | some label =>
  match args.getStr (str "value") with
  | none => .err (.ToolExecution (str "Missing \x27value\x27 parameter"))
  | some value =>
  match st.memory.set_block label value with
  | .err e => .err e
  | .panic => .panic
  | .ok mem =>
    .ok (ToolResult.mkSuccess (.obj
      [(str "status", .str (str "success")),
       (str "message", .str (str "Updated memory block \x27" ++ label ++ str "\x27"))]),
      { st with memory := mem })

/-- `MemoryAppendHandler::execute`. -/
def memoryAppendRun (args : Json) (st : AgentState) :
    RustResult (ToolResult × AgentState) :=
  match args.getStr (str "label") with
  | none => .err (.ToolExecution (str "Missing \x27label\x27 parameter"))
  | some label =>
  match args.getStr (str "text") with
  | none => .err (.ToolExecution (str "Missing \x27text\x27 parameter"))
  | some text =>
  match st.memory.append_block label text with
  | .err e => .err e
  | .panic => .panic
  | .ok mem =>
    .ok (ToolResult.mkSuccess (.obj
      [(str "status", .str (str "success")),
       (str "message", .str (str "Appended to memory block \x27" ++ label ++ str "\x27"))]),
      { st with memory := mem })

/-- `ArchivalInsertHandler::execute` (`now` is the abstracted
`Utc::now()`). -/
def archivalInsertRun (args : Json) (st : AgentState) (now : Nat) :
    RustResult (ToolResult × AgentState) :=
  let folder := (args.getStr (str "folder")).getD (str "default")
  match args.getStr (str "text") with
  | none => .err (.ToolExecution (str "Missing \x27text\x27 parameter"))
  | some text =>
    let entry : Json := .obj [(str "folder", .str folder),
      (str "text", .str text), (str "timestamp", .num now)]
    .ok (ToolResult.mkSuccess (.obj
      [(str "status", .str (str "success")),
       (str "message", .str (str "Added to archival memory"))]),
      { st with archival_entries := st.archival_entries ++ [entry] })

/-- Case-insensitive containment test used by the search handlers. -/
def entryTextMatches (query : Str) (entry : Json) : Bool :=
  match entry.getStr (str "text") with
  | some t => strContains (lowerStr t) (lowerStr query)
  | none => false

/-- `ArchivalSearchHandler::execute`: substring filter over the archival
entries, first `top_k` in insertion order, heartbeat requested. -/
def archivalSearchRun (args : Json) (st : AgentState) :
    RustResult (ToolResult × AgentState) :=
  match args.getStr (str "query") with
  | none => .err (.ToolExecution (str "Missing \x27query\x27 parameter"))
  | some query =>
    let top_k := (args.getNat (str "top_k")).getD 5
    let results := (st.archival_entries.filter (entryTextMatches query)).take top_k
    .ok ((ToolResult.mkSuccess (.obj
      [(str "results", .arr results),
       (str "count", .num results.length)])).with_heartbeat, st)

/-- Lowercase role names used by serde's `rename_all = "lowercase"`. -/
def MessageRole.jsonName : MessageRole → Str
  | .System => str "system"
  | .User => str "user"
  | .Assistant => str "assistant"
  | .Tool => str "tool"

/-- serde emission of a `ToolCallInfo`. -/
def encodeToolCallInfo (t : ToolCallInfo) : Json :=
  .obj [(str "id", .str t.id), (str "name", .str t.name),
    (str "arguments", t.arguments)]

/-- serde emission of a `Message` (`tool_calls` / `tool_call_id` elided
when `None`; the timestamp serializes via its abstract value). -/
def encodeMessage (m : Message) : Json :=
  .obj ([(str "id", .str m.id), (str "role", .str m.role.jsonName),
      (str "content", .str m.content)] ++
    (match m.tool_calls with
     | some cs => [(str "tool_calls", .arr (cs.map encodeToolCallInfo))]
     | none => []) ++
    (match m.tool_call_id with
     | some i => [(str "tool_call_id", .str i)]
     | none => []) ++
    [(str "timestamp", .num m.timestamp), (str "metadata", .obj m.metadata)])

/-- `ConversationSearchHandler::execute`: delegates to the buffer
search. -/
def conversationSearchRun (args : Json) (st : AgentState) :
    RustResult (ToolResult × AgentState) :=
  match args.getStr (str "query") with
  | none => .err (.ToolExecution (str "Missing \x27query\x27 parameter"))
  | some query =>
    let top_k := (args.getNat (str "top_k")).getD 5
    let results := st.messages.search query top_k
    .ok (ToolResult.mkSuccess (.obj
      [(str "results", .arr (results.map encodeMessage)),
       (str "count", .num results.length)]), st)

/-- A registered tool handler: one of the five built-ins, or an external
handler registered at runtime (an arbitrary state-transforming
function). -/
inductive Handler where
  | memoryReplace
  | memoryAppend
  | archivalInsert
  | archivalSearch
  | conversationSearch
  | external (run : Json → AgentState → Nat → RustResult (ToolResult × AgentState))

/-- Dispatch to a handler's `execute`. -/
def Handler.run (h : Handler) (args : Json) (st : AgentState) (now : Nat) :
    RustResult (ToolResult × AgentState) :=
  match h with
  | .memoryReplace => memoryReplaceRun args st
  | .memoryAppend => memoryAppendRun args st
  | .archivalInsert => archivalInsertRun args st now
  | .archivalSearch => archivalSearchRun args st
  | .conversationSearch => conversationSearchRun args st
  | .external f => f args st now

/-- `ToolExecutor`: the name → handler map, as an association list. -/
abbrev ToolExecutor := List (Str × Handler)

/-- `ToolExecutor::new`: seeded with the five built-ins. -/
def ToolExecutor.new : ToolExecutor :=
  [(str "memory_replace", .memoryReplace),
   (str "memory_append", .memoryAppend),
   (str "archival_insert", .archivalInsert),
   (str "archival_search", .archivalSearch),
   (str "conversation_search", .conversationSearch)]

/-- `ToolExecutor::register`: `HashMap::insert` — replace the handler
under an existing name, otherwise add the entry. -/
def ToolExecutor.register (e : ToolExecutor) (name : Str) (h : Handler) :
    ToolExecutor :=
  if (e.find? (fun p => p.1 = name)).isSome then
    e.map (fun p => if p.1 = name then (p.1, h) else p)
  else
    e ++ [(name, h)]

/-- The `Clone` impl of `ToolExecutor` in `tool.rs`: it rebuilds the map
from the five built-ins and ignores the cloned value entirely. -/
def ToolExecutor.cloneExec (_ : ToolExecutor) : ToolExecutor := ToolExecutor.new

/-- `ToolExecutor::execute`: look the handler up by the call's name; an
absent name fails with `ToolExecution("Unknown tool: {name}")`. -/
def ToolExecutor.execute (e : ToolExecutor) (call : ToolCall) (st : AgentState)
    (now : Nat) : RustResult (ToolResult × AgentState) :=
  match e.find? (fun p => p.1 = call.name) with
  | none => .err (.ToolExecution (str "Unknown tool: " ++ call.name))
  | some p => p.2.run call.arguments st now

/-! ## Provider contract (`src/core/src/provider.rs`) -/

/-- `TokenUsage`. -/
structure TokenUsage where
  prompt_tokens : Nat
  completion_tokens : Nat
  total_tokens : Nat
  deriving DecidableEq, Repr

/-- `Completion`: text, tool calls, heartbeat bit and usage. -/
structure Completion where
  text : Str
  tool_calls : List ToolCall
  request_heartbeat : Bool
  usage : TokenUsage

/-- An `LlmProvider` behaviour: the completion (or failure) it returns
for the `n`-th `complete` call of a run.  Since the loop is sequential
and deterministic given the provider's answers, quantifying over these
functions covers every provider behaviour. -/
abbrev Provider := Nat → RustResult Completion

/-! ## Input triviality filter (`Agent::is_invalid_empty_message`) -/

/-- Rust `char::is_whitespace`: the Unicode `White_Space` code points. -/
def rustIsWhitespace (c : Char) : Bool :=
  c.toNat ∈ [0x09, 0x0A, 0x0B, 0x0C, 0x0D, 0x20, 0x85, 0xA0, 0x1680,
    0x2000, 0x2001, 0x2002, 0x2003, 0x2004, 0x2005, 0x2006, 0x2007,
    0x2008, 0x2009, 0x200A, 0x2028, 0x2029, 0x202F, 0x205F, 0x3000]

/-- Rust `str::trim`: strip Unicode whitespace from both ends. -/
def trimStr (s : Str) : Str :=
  ((s.dropWhile rustIsWhitespace).reverse.dropWhile rustIsWhitespace).reverse

/-- The quote characters of the regex in `is_invalid_empty_message`:
`"`, `'`, U+201C and U+201D. -/
def isQuoteChar (c : Char) : Bool :=
  c = '"' || c = Char.ofNat 0x27 || c = Char.ofNat 0x201C || c = Char.ofNat 0x201D

/-- The regex
`^$|^\s+$|^[Q]+$|^[Q]+\s*$|^\s*[Q]+\s*$` (with `Q` the quote class) as a
predicate on the already-trimmed string: since the quote class and `\s`
are disjoint, each anchored alternative is a take-while decomposition. -/
def matchesTrivialRe (t : Str) : Bool :=
  t.isEmpty
  || (!t.isEmpty && t.all rustIsWhitespace)
  || (!t.isEmpty && t.all isQuoteChar)
  || (let q := t.takeWhile isQuoteChar
      !q.isEmpty && (t.drop q.length).all rustIsWhitespace)
  || (let a := t.dropWhile rustIsWhitespace
      let b := a.takeWhile isQuoteChar
      !b.isEmpty && (a.drop b.length).all rustIsWhitespace)

/-- `Agent::is_invalid_empty_message`: trim, then match the regex. -/
def isInvalidEmptyMessage (msg : Str) : Bool := matchesTrivialRe (trimStr msg)

/-! ## The step loop (`Agent::reply_only` / `Agent::step`) -/

/-- `StepResult`. -/
structure StepResult where
  text : Str
  tool_trace : List Json
  usage : TokenUsage

/-- The tool-call batch of one loop iteration (step 5a of the spec's
loop): execute each call in order against the registry, append a `Tool`
message whose content is the JSON-serialized `result` field, record the
trace entry, and accumulate the heartbeat bit.  Fresh message UUIDs are
abstracted as empty ids (no claim depends on them). -/
def execToolBatch (exec : ToolExecutor) (now : Nat) :
    List ToolCall → AgentState → List Json → Bool →
    RustResult (AgentState × List Json × Bool)
  | [], st, trace, hb => .ok (st, trace, hb)
  | c :: rest, st, trace, hb =>
    match exec.execute c st now with
    | .err e => .err e
    | .panic => .panic
    | .ok (result, st') =>
      let toolMsg := Message.mkTool [] c.id (Json.serialize result.result) now
      let st'' := { st' with messages := st'.messages.push toolMsg }
      let tr := trace ++ [Json.obj [(str "tool", .str c.name),
        (str "args", c.arguments), (str "result", result.result)]]
      execToolBatch exec now rest st'' tr (hb || result.request_heartbeat)

/-- The tail of a loop iteration (step 6): non-empty completion text is
returned as the reply; empty text falls back to the literal
`"I have no response to share."`.  Appends the final `Assistant`
message and stamps `updated_at`. -/
def finalizeReply (completion : Completion) (st : AgentState)
    (trace : List Json) (calls : Nat) (now : Nat) :
    RustResult (StepResult × AgentState) × Nat :=
  let response_text :=
    if completion.text.isEmpty then str "I have no response to share."
    else completion.text
  let st' := { st with
    messages := st.messages.push (Message.mkAssistant [] response_text now),
    updated_at := now }
  (.ok (⟨response_text, trace, completion.usage⟩, st'), calls)

/-- The body of `Agent::reply_only`, with the remaining iteration budget
as fuel (the source counts `iterations` up to `MAX_ITERATIONS = 10` and
errors on exceeding it).  Returns the outcome paired with the number of
provider calls made.  The prompt string built each iteration determines
the provider's request; the provider's answers are abstracted by the
call index (see `Provider`). -/
def replyLoop (f : Provider) (cfg : AgentConfig) (now : Nat) :
    Nat → AgentState → List Json → Nat →
    RustResult (StepResult × AgentState) × Nat
  | 0, _, _, calls =>
    (.err (.ToolExecution (str "Maximum iterations exceeded")), calls)
  | fuel + 1, st, trace, calls =>
    match buildPrompt (ContextWindow.new cfg.max_context_tokens)
        cfg.system_prompt st.memory st.messages.messages cfg.max_messages with
    | .err e => (.err e, calls)
    | .panic => (.panic, calls)
    | .ok (_prompt, w') =>
      let sumStep : RustResult AgentState :=
        if w'.should_summarize then
          match summarizeMessages st.messages.messages 10 with
          | none => .panic
          | some summary =>
            let m := Message.mkSystem [] (str "Context summary: " ++ summary) now
            .ok { st with messages := st.messages.push m }
        else .ok st
      match sumStep with
      | .err e => (.err e, calls)
      | .panic => (.panic, calls)
      | .ok st1 =>
        match f calls with
        | .err e => (.err e, calls + 1)
        | .panic => (.panic, calls + 1)
        | .ok completion =>
          if completion.tool_calls.isEmpty then
            finalizeReply completion st1 trace (calls + 1) now
          else
            match execToolBatch ToolExecutor.new now completion.tool_calls
                st1 trace false with
            | .err e => (.err e, calls + 1)
            | .panic => (.panic, calls + 1)
            | .ok (st2, trace', hb) =>
              let asst := (Message.mkAssistant [] [] now).with_tool_calls
                (completion.tool_calls.map (fun tc => ⟨tc.id, tc.name, tc.arguments⟩))
              let st3 := { st2 with messages := st2.messages.push asst }
              if hb || completion.request_heartbeat then
                replyLoop f cfg now fuel st3 trace' (calls + 1)
              else
                finalizeReply completion st3 trace' (calls + 1) now

/-- `MAX_ITERATIONS` in `Agent::reply_only`. -/
def MAX_ITERATIONS : Nat := 10

/-- `Agent::reply_only`: run the loop on the current state with the full
iteration budget. -/
def replyOnly (f : Provider) (cfg : AgentConfig) (st : AgentState)
    (now : Nat) : RustResult (StepResult × AgentState) × Nat :=
  replyLoop f cfg now MAX_ITERATIONS st [] 0

/-- `Agent::step`: append a `User` message (and stamp `updated_at`) only
for valid content — input that is neither empty-related nor
whitespace-only — then run `reply_only` in every case. -/
def step (f : Provider) (cfg : AgentConfig) (st : AgentState) (input : Str)
    (now : Nat) : RustResult (StepResult × AgentState) × Nat :=
  let isEmptyRelated := isInvalidEmptyMessage input
  let isValid := !isEmptyRelated && !(trimStr input).isEmpty
  let st1 :=
    if isValid then
      let ms := st.messages.push (Message.mkUser [] input now)
      { st with messages := ms, updated_at := now }
    else st
  replyOnly f cfg st1 now

/-- `Agent::set_memory_block`: delegate to `Memory::set_block` and stamp
`updated_at`. -/
def setMemoryBlock (st : AgentState) (label value : Str) (now : Nat) :
    RustResult AgentState :=
  match st.memory.set_block label value with
  | .ok mem => .ok { st with memory := mem, updated_at := now }
  | .err e => .err e
  | .panic => .panic


/-! ## Agent-file structures (`src/core/src/af.rs`) -/

/-- Rust `ToolSchema` (`tool.rs`). -/
structure ToolSchema where
  name : Str
  description : Str
  parameters : Json
  required : List Str

/-- Rust `BlockExport`. -/
structure BlockExport where
  id : Str
  label : Str
  description : Str
  value : Str
  limit : Nat

/-- Rust `MemoryExport`. -/
structure MemoryExport where
  memory_class : Str
  blocks : List Str
  template : Option Str

/-- Rust `ToolRule`. -/
structure ToolRule where
  tool_name : Str
  children : List Str

/-- Rust `AgentStateExport`. -/
structure AgentStateExport where
  user_id : Option Str
  created_at : Nat
  updated_at : Nat
  tools : List Str
  tool_rules : Option (List ToolRule)
  memory : MemoryExport
  metadata : Option Json

/-- Rust `ModelConfig` (temperature carried opaquely, as in
`AgentConfig`). -/
structure ModelConfig where
  model_endpoint : Str
  context_window : Nat
  temperature : Option Int
  max_tokens : Option Nat

/-- Rust `AgentExport`. -/
structure AgentExport where
  id : Str
  name : Str
  system_prompt : Str
  message_buffer_size : Nat
  agent_state : AgentStateExport
  messages : List Message
  model : ModelConfig

/-- Rust `GroupExport`. -/
structure GroupExport where
  id : Str
  name : Str
  members : List Str

/-- Rust `FileExport`. -/
structure FileExport where
  id : Str
  name : Str
  content : Str
  metadata : List (Str × Json)

/-- Rust `SourceExport`. -/
structure SourceExport where
  id : Str
  name : Str
  source_type : Str
  metadata : List (Str × Json)

/-- Rust `ToolExport`. -/
structure ToolExport where
  id : Str
  name : Str
  schema : ToolSchema
  source_code : Option Str
  source_type : Str

/-- Rust `McpServerExport`. -/
structure McpServerExport where
  id : Str
  name : Str
  config : Json

/-- Rust `AgentFileMetadata` (export time abstracted like every
timestamp). -/
structure AgentFileMetadata where
  letta_version : Str
  export_time : Nat
  export_source : Str
  additional : Option (List (Str × Json))

/-- Rust `AgentFileV1`. -/
structure AgentFileV1 where
  version : Str
  agents : List AgentExport
  groups : Option (List GroupExport)
  blocks : List BlockExport
  files : Option (List FileExport)
  sources : Option (List SourceExport)
  tools : Option (List ToolExport)
  mcp_servers : Option (List McpServerExport)
  metadata : AgentFileMetadata

/-- The crate version baked into `letta_core::VERSION`
(`env!("CARGO_PKG_VERSION")`); its concrete value is irrelevant to every
claim. -/
def lettaVersion : Str := str "0.1.0"

/-- The block-export record built by `AgentFile::export` for one block. -/
def toExportB (b : MemoryBlock) : BlockExport :=
  ⟨str "block_" ++ b.label, b.label, b.description, b.value, b.limit⟩

/-- `AgentFile::export`: one agent, the flattened block list with ids
`block_{label}`, the memory class tag, the tool schemas both as name
references and as `tools[]`, and the fixed version / source metadata. -/
def AgentFile.exportV1 (config : AgentConfig) (state : AgentState)
    (tool_schemas : List ToolSchema) (now : Nat) : AgentFileV1 :=
  let blocks := state.memory.blocks.map toExportB
  let block_ids := state.memory.blocks.map (fun b => str "block_" ++ b.label)
  let memory_export : MemoryExport :=
    ⟨if state.memory.isChat then str "ChatMemory" else str "BasicMemory",
      block_ids, none⟩
  let agent_state_export : AgentStateExport :=
    ⟨none, state.created_at, state.updated_at, tool_schemas.map (·.name),
      none, memory_export, some state.metadata⟩
  let agent_export : AgentExport :=
    ⟨state.id, state.name, config.system_prompt, config.max_messages,
      agent_state_export, state.messages.messages,
      ⟨config.model, config.max_context_tokens, some config.temperature, none⟩⟩
  let tools := some (tool_schemas.map (fun s =>
    ToolExport.mk (str "tool_" ++ s.name) s.name s none (str "builtin")))
  ⟨str "0.1.0", [agent_export], none, blocks, none, none, tools, none,
    ⟨lettaVersion, now, str "letta-lite", none⟩⟩

/-- `AgentFile::export` never fails; the `Result` wrapper is `Ok` around
the document built by `AgentFile.exportV1`. -/
def AgentFile.export (config : AgentConfig) (state : AgentState)
    (tool_schemas : List ToolSchema) (now : Nat) : RustResult AgentFileV1 :=
  .ok (AgentFile.exportV1 config state tool_schemas now)

/-- `AgentFile::import`: use the first agent; rebuild the config from its
fields; start from a fresh `AgentState` (chat memory with the default
blocks, 100-message buffer), overwrite id and timestamps, install each
block referenced by the memory that is found in `blocks[]`, push the
message array, and copy the metadata when present. -/
def AgentFile.import (af : AgentFileV1) (freshId : Str) (now : Nat) :
    RustResult (AgentConfig × AgentState) :=
  match af.agents.head? with
  | none => .err (.InvalidConfig (str "No agents in AF file"))
  | some agent_export =>
    let config : AgentConfig :=
      ⟨agent_export.name, agent_export.system_prompt,
        agent_export.model.model_endpoint, agent_export.message_buffer_size,
        agent_export.model.context_window,
        agent_export.model.temperature.getD 7,
        !agent_export.agent_state.tools.isEmpty⟩
    let state0 := AgentState.new freshId agent_export.name now
    let state1 := { state0 with
      id := agent_export.id
      created_at := agent_export.agent_state.created_at
      updated_at := agent_export.agent_state.updated_at }
    let state2 := agent_export.agent_state.memory.blocks.foldl
      (fun st block_id =>
        match af.blocks.find? (fun b => b.id = block_id) with
        | some be =>
          let mem := st.memory.insertBlock be.label
            ⟨be.label, be.description, be.value, be.limit⟩
          { st with memory := mem }
        | none => st) state1
    let state3 := agent_export.messages.foldl
      (fun st msg => { st with messages := st.messages.push msg }) state2
    let state4 :=
      match agent_export.agent_state.metadata with
      | some md => { state3 with metadata := md }
      | none => state3
    .ok (config, state4)

/-! ## serde emission and parsing of the agent file
(`AgentFile::to_json` / `AgentFile::from_json`)

The derived serde codec is modelled field by field on the `Json` value
tree: `to_string_pretty` followed by `from_str` is the identity on that
tree, so the text layer is elided.  Fields marked
`skip_serializing_if = "Option::is_none"` are omitted when `none` and
read back as `none` when absent. -/

/-- Emission of an optional field under serde's
`skip_serializing_if = "Option::is_none"`. -/
def jsonOptField (key : Str) : Option Json → List (Str × Json)
  | some j => [(key, j)]
  | none => []

/-- JSON array of strings. -/
def encodeStrList (xs : List Str) : Json := .arr (xs.map .str)

/-- serde emission of a `ToolSchema`. -/
def encodeToolSchema (s : ToolSchema) : Json :=
  .obj [(str "name", .str s.name), (str "description", .str s.description),
    (str "parameters", s.parameters), (str "required", encodeStrList s.required)]

/-- serde emission of a `BlockExport`. -/
def encodeBlockExport (b : BlockExport) : Json :=
  .obj [(str "id", .str b.id), (str "label", .str b.label),
    (str "description", .str b.description), (str "value", .str b.value),
    (str "limit", .num b.limit)]

/-- serde emission of a `MemoryExport`. -/
def encodeMemoryExport (m : MemoryExport) : Json :=
  .obj ([(str "memory_class", .str m.memory_class),
    (str "blocks", encodeStrList m.blocks)] ++
    jsonOptField (str "template") (m.template.map .str))

/-- serde emission of a `ToolRule`. -/
def encodeToolRule (r : ToolRule) : Json :=
  .obj [(str "tool_name", .str r.tool_name),
    (str "children", encodeStrList r.children)]

/-- serde emission of an `AgentStateExport`. -/
def encodeAgentStateExport (s : AgentStateExport) : Json :=
  .obj ([(str "user_id", s.user_id.elim Json.null .str),
    (str "created_at", .num s.created_at),
    (str "updated_at", .num s.updated_at),
    (str "tools", encodeStrList s.tools)] ++
    jsonOptField (str "tool_rules")
      (s.tool_rules.map (fun rs => .arr (rs.map encodeToolRule))) ++
    [(str "memory", encodeMemoryExport s.memory)] ++
    jsonOptField (str "metadata") s.metadata)

/-- serde emission of a `ModelConfig`. -/
def encodeModelConfig (m : ModelConfig) : Json :=
  .obj ([(str "model_endpoint", .str m.model_endpoint),
    (str "context_window", .num m.context_window)] ++
    jsonOptField (str "temperature") (m.temperature.map .num) ++
    jsonOptField (str "max_tokens") (m.max_tokens.map (fun n => .num n)))

/-- serde emission of an `AgentExport`. -/
def encodeAgentExport (a : AgentExport) : Json :=
  .obj [(str "id", .str a.id), (str "name", .str a.name),
    (str "system_prompt", .str a.system_prompt),
    (str "message_buffer_size", .num a.message_buffer_size),
    (str "agent_state", encodeAgentStateExport a.agent_state),
    (str "messages", .arr (a.messages.map encodeMessage)),
    (str "model", encodeModelConfig a.model)]

/-- serde emission of a `GroupExport`. -/
def encodeGroupExport (g : GroupExport) : Json :=
  .obj [(str "id", .str g.id), (str "name", .str g.name),
    (str "members", encodeStrList g.members)]

/-- serde emission of a `FileExport`. -/
def encodeFileExport (f : FileExport) : Json :=
  .obj [(str "id", .str f.id), (str "name", .str f.name),
    (str "content", .str f.content), (str "metadata", .obj f.metadata)]

/-- serde emission of a `SourceExport`. -/
def encodeSourceExport (s : SourceExport) : Json :=
  .obj [(str "id", .str s.id), (str "name", .str s.name),
    (str "source_type", .str s.source_type), (str "metadata", .obj s.metadata)]

/-- serde emission of a `ToolExport`. -/
def encodeToolExport (t : ToolExport) : Json :=
  .obj [(str "id", .str t.id), (str "name", .str t.name),
    (str "schema", encodeToolSchema t.schema),
    (str "source_code", t.source_code.elim Json.null .str),
    (str "source_type", .str t.source_type)]

/-- serde emission of an `McpServerExport`. -/
def encodeMcpServerExport (m : McpServerExport) : Json :=
  .obj [(str "id", .str m.id), (str "name", .str m.name),
    (str "config", m.config)]

/-- serde emission of an `AgentFileMetadata`. -/
def encodeAgentFileMetadata (m : AgentFileMetadata) : Json :=
  .obj ([(str "letta_version", .str m.letta_version),
    (str "export_time", .num m.export_time),
    (str "export_source", .str m.export_source)] ++
    jsonOptField (str "additional") (m.additional.map .obj))

/-- `AgentFile::to_json` (on the JSON value tree; see the section
comment). -/
def AgentFile.to_json (af : AgentFileV1) : Json :=
  .obj ([(str "version", .str af.version),
    (str "agents", .arr (af.agents.map encodeAgentExport))] ++
    jsonOptField (str "groups")
      (af.groups.map (fun gs => .arr (gs.map encodeGroupExport))) ++
    [(str "blocks", .arr (af.blocks.map encodeBlockExport))] ++
    jsonOptField (str "files")
      (af.files.map (fun fs => .arr (fs.map encodeFileExport))) ++
    jsonOptField (str "sources")
      (af.sources.map (fun ss => .arr (ss.map encodeSourceExport))) ++
    jsonOptField (str "tools")
      (af.tools.map (fun ts => .arr (ts.map encodeToolExport))) ++
    jsonOptField (str "mcp_servers")
      (af.mcp_servers.map (fun ms => .arr (ms.map encodeMcpServerExport))) ++
    [(str "metadata", encodeAgentFileMetadata af.metadata)])

/-- One object field of a parsed JSON value. -/
def Json.field (j : Json) (key : Str) : Option Json :=
  match j with
  | .obj fs => fs.lookup key
  | _ => none

/-- Parse a JSON string. -/
def Json.asStr : Json → Option Str
  | .str s => some s
  | _ => none

/-- Parse a non-negative JSON integer (a Rust `usize`). -/
def Json.asNat : Json → Option Nat
  | .num n => if n < 0 then none else some n.toNat
  | _ => none

/-- Parse a JSON integer. -/
def Json.asInt : Json → Option Int
  | .num n => some n
  | _ => none

/-- Parse a JSON array. -/
def Json.asArr : Json → Option (List Json)
  | .arr xs => some xs
  | _ => none

/-- Parse a JSON object into its field list. -/
def Json.asObjFields : Json → Option (List (Str × Json))
  | .obj fs => some fs
  | _ => none

/-- serde parsing of an `Option` field: absent or `null` is `none`. -/
def decodeOptWith (dec : Json → Option α) : Option Json → Option (Option α)
  | none => some none
  | some .null => some none
  | some v => (dec v).map some

/-- Required field parse: look the field up and parse it. -/
def reqField (j : Json) (key : Str) (dec : Json → Option α) : Option α :=
  (j.field key).bind dec

/-- Parse every element of a list, failing on the first failure
(`serde` sequence semantics). -/
def optMapList (dec : Json → Option α) : List Json → Option (List α)
  | [] => some []
  | x :: xs =>
    match dec x with
    | none => none
    | some a => (optMapList dec xs).map (a :: ·)

/-- Parse every element of a JSON array. -/
def decodeList (dec : Json → Option α) (j : Json) : Option (List α) :=
  (j.asArr).bind (optMapList dec)

/-- serde parsing of a list of strings. -/
def decodeStrList (j : Json) : Option (List Str) := decodeList Json.asStr j

/-- serde parsing of a `MessageRole` (`rename_all = "lowercase"`). -/
def decodeRole (s : Str) : Option MessageRole :=
  if s = str "system" then some .System
  else if s = str "user" then some .User
  else if s = str "assistant" then some .Assistant
  else if s = str "tool" then some .Tool
  else none

/-- serde parsing of a `ToolCallInfo`. -/
def decodeToolCallInfo (j : Json) : Option ToolCallInfo := do
  let id ← reqField j (str "id") Json.asStr
  let name ← reqField j (str "name") Json.asStr
  let args ← j.field (str "arguments")
  pure ⟨id, name, args⟩

/-- serde parsing of a `Message` (`metadata` has `#[serde(default)]`). -/
def decodeMessage (j : Json) : Option Message := do
  let id ← reqField j (str "id") Json.asStr
  let role ← (reqField j (str "role") Json.asStr).bind decodeRole
  let content ← reqField j (str "content") Json.asStr
  let tool_calls ← decodeOptWith (decodeList decodeToolCallInfo)
    (j.field (str "tool_calls"))
  let tool_call_id ← decodeOptWith Json.asStr (j.field (str "tool_call_id"))
  let timestamp ← reqField j (str "timestamp") Json.asNat
  let metadata := ((j.field (str "metadata")).bind Json.asObjFields).getD []
  pure ⟨id, role, content, tool_calls, tool_call_id, timestamp, metadata⟩

/-- serde parsing of a `ToolSchema` (`required` has `#[serde(default)]`). -/
def decodeToolSchema (j : Json) : Option ToolSchema := do
  let name ← reqField j (str "name") Json.asStr
  let description ← reqField j (str "description") Json.asStr
  let parameters ← j.field (str "parameters")
  let required := ((j.field (str "required")).bind decodeStrList).getD []
  pure ⟨name, description, parameters, required⟩

/-- serde parsing of a `BlockExport`. -/
def decodeBlockExport (j : Json) : Option BlockExport := do
  let id ← reqField j (str "id") Json.asStr
  let label ← reqField j (str "label") Json.asStr
  let description ← reqField j (str "description") Json.asStr
  let value ← reqField j (str "value") Json.asStr
  let limit ← reqField j (str "limit") Json.asNat
  pure ⟨id, label, description, value, limit⟩

/-- serde parsing of a `MemoryExport`. -/
def decodeMemoryExport (j : Json) : Option MemoryExport := do
  let memory_class ← reqField j (str "memory_class") Json.asStr
  let blocks ← reqField j (str "blocks") decodeStrList
  let template ← decodeOptWith Json.asStr (j.field (str "template"))
  pure ⟨memory_class, blocks, template⟩

/-- serde parsing of a `ToolRule`. -/
def decodeToolRule (j : Json) : Option ToolRule := do
  let tool_name ← reqField j (str "tool_name") Json.asStr
  let children ← reqField j (str "children") decodeStrList
  pure ⟨tool_name, children⟩

/-- serde parsing of an `AgentStateExport`. -/
def decodeAgentStateExport (j : Json) : Option AgentStateExport := do
  let user_id ← decodeOptWith Json.asStr (j.field (str "user_id"))
  let created_at ← reqField j (str "created_at") Json.asNat
  let updated_at ← reqField j (str "updated_at") Json.asNat
  let tools ← reqField j (str "tools") decodeStrList
  let tool_rules ← decodeOptWith (decodeList decodeToolRule)
    (j.field (str "tool_rules"))
  let memory ← (j.field (str "memory")).bind decodeMemoryExport
  let metadata ← decodeOptWith some (j.field (str "metadata"))
  pure ⟨user_id, created_at, updated_at, tools, tool_rules, memory, metadata⟩

/-- serde parsing of a `ModelConfig`. -/
def decodeModelConfig (j : Json) : Option ModelConfig := do
  let model_endpoint ← reqField j (str "model_endpoint") Json.asStr
  let context_window ← reqField j (str "context_window") Json.asNat
  let temperature ← decodeOptWith Json.asInt (j.field (str "temperature"))
  let max_tokens ← decodeOptWith Json.asNat (j.field (str "max_tokens"))
  pure ⟨model_endpoint, context_window, temperature, max_tokens⟩

/-- serde parsing of an `AgentExport`. -/
def decodeAgentExport (j : Json) : Option AgentExport := do
  let id ← reqField j (str "id") Json.asStr
  let name ← reqField j (str "name") Json.asStr
  let system_prompt ← reqField j (str "system_prompt") Json.asStr
  let message_buffer_size ← reqField j (str "message_buffer_size") Json.asNat
  let agent_state ← (j.field (str "agent_state")).bind decodeAgentStateExport
  let messages ← reqField j (str "messages") (decodeList decodeMessage)
  let model ← (j.field (str "model")).bind decodeModelConfig
  pure ⟨id, name, system_prompt, message_buffer_size, agent_state, messages, model⟩

/-- serde parsing of a `GroupExport`. -/
def decodeGroupExport (j : Json) : Option GroupExport := do
  let id ← reqField j (str "id") Json.asStr
  let name ← reqField j (str "name") Json.asStr
  let members ← reqField j (str "members") decodeStrList
  pure ⟨id, name, members⟩

/-- serde parsing of a `FileExport`. -/
def decodeFileExport (j : Json) : Option FileExport := do
  let id ← reqField j (str "id") Json.asStr
  let name ← reqField j (str "name") Json.asStr
  let content ← reqField j (str "content") Json.asStr
  let metadata ← (j.field (str "metadata")).bind Json.asObjFields
  pure ⟨id, name, content, metadata⟩

/-- serde parsing of a `SourceExport`. -/
def decodeSourceExport (j : Json) : Option SourceExport := do
  let id ← reqField j (str "id") Json.asStr
  let name ← reqField j (str "name") Json.asStr
  let source_type ← reqField j (str "source_type") Json.asStr
  let metadata ← (j.field (str "metadata")).bind Json.asObjFields
  pure ⟨id, name, source_type, metadata⟩

/-- serde parsing of a `ToolExport`. -/
def decodeToolExport (j : Json) : Option ToolExport := do
  let id ← reqField j (str "id") Json.asStr
  let name ← reqField j (str "name") Json.asStr
  let schema ← (j.field (str "schema")).bind decodeToolSchema
  let source_code ← decodeOptWith Json.asStr (j.field (str "source_code"))
  let source_type ← reqField j (str "source_type") Json.asStr
  pure ⟨id, name, schema, source_code, source_type⟩

/-- serde parsing of an `McpServerExport`. -/
def decodeMcpServerExport (j : Json) : Option McpServerExport := do
  let id ← reqField j (str "id") Json.asStr
  let name ← reqField j (str "name") Json.asStr
  let config ← j.field (str "config")
  pure ⟨id, name, config⟩

/-- serde parsing of an `AgentFileMetadata`. -/
def decodeAgentFileMetadata (j : Json) : Option AgentFileMetadata := do
  let letta_version ← reqField j (str "letta_version") Json.asStr
  let export_time ← reqField j (str "export_time") Json.asNat
  let export_source ← reqField j (str "export_source") Json.asStr
  let additional ← decodeOptWith Json.asObjFields (j.field (str "additional"))
  pure ⟨letta_version, export_time, export_source, additional⟩

/-- serde parsing of an `AgentFileV1`: unknown top-level fields are
ignored (each known field is looked up by name). -/
def decodeAgentFileV1 (j : Json) : Option AgentFileV1 := do
  let version ← reqField j (str "version") Json.asStr
  let agents ← reqField j (str "agents") (decodeList decodeAgentExport)
  let groups ← decodeOptWith (decodeList decodeGroupExport)
    (j.field (str "groups"))
  let blocks ← reqField j (str "blocks") (decodeList decodeBlockExport)
  let files ← decodeOptWith (decodeList decodeFileExport)
    (j.field (str "files"))
  let sources ← decodeOptWith (decodeList decodeSourceExport)
    (j.field (str "sources"))
  let tools ← decodeOptWith (decodeList decodeToolExport)
    (j.field (str "tools"))
  let mcp_servers ← decodeOptWith (decodeList decodeMcpServerExport)
    (j.field (str "mcp_servers"))
  let md ← (j.field (str "metadata")).bind decodeAgentFileMetadata
  pure ⟨version, agents, groups, blocks, files, sources, tools, mcp_servers, md⟩

/-- `AgentFile::from_json`: parse failures surface as `Serialization`
errors. -/
def AgentFile.from_json (j : Json) : RustResult AgentFileV1 :=
  match decodeAgentFileV1 j with
  | some af => .ok af
  | none => .err (.Serialization (str "invalid agent file"))

/-! ## Concrete fixtures and result extractors used by the theorems -/

/-- The memory produced by `set_block("test", "x"×3000)` on an empty
basic memory: the freshly created block holds a 3000-byte value against
the default 2000-byte limit. -/
def c1BadMemory : Memory :=
  ⟨false, [⟨str "test", str "User-defined block",
    List.replicate 3000 'x', defaultLimit⟩], none⟩

/-- A provider that answers every call with a heartbeat-requesting
`archival_search` tool call and no text, driving the loop forever. -/
def heartbeatForeverProvider : Provider := fun _ =>
  .ok ⟨[], [⟨str "call", str "archival_search",
    .obj [(str "query", .str (str "q"))]⟩], true, ⟨0, 0, 0⟩⟩

/-- A valid agent configuration (empty system prompt, no messages
included in prompts) keeping the concrete 10-iteration run small. -/
def c7Config : AgentConfig := ⟨str "assistant", [], str "toy", 0, 8192, 7, true⟩

/-- Recognizes the iteration-cap error
`ToolExecution("Maximum iterations exceeded")`. -/
def isMaxIterErr (r : RustResult (StepResult × AgentState)) : Bool :=
  match r with
  | .err (.ToolExecution msg) => msg == str "Maximum iterations exceeded"
  | _ => false

/-- The fallback reply text of `reply_only` for an empty completion. -/
def noResponseText : Str := str "I have no response to share."

/-- A provider whose first completion has empty text, no tool calls and
no heartbeat; a distinctive second completion would be returned if the
loop re-prompted. -/
def c5Provider : Provider := fun i =>
  if i = 0 then .ok ⟨[], [], false, ⟨0, 0, 0⟩⟩
  else .ok ⟨str "SECOND", [], false, ⟨0, 0, 0⟩⟩

/-- A `memory_replace` tool call on the default `human` block. -/
def c5ToolCall : ToolCall :=
  ⟨str "call_0", str "memory_replace",
    .obj [(str "label", .str (str "human")), (str "value", .str (str "v"))]⟩

/-- A pure tool-calling completion: empty text, one successful tool
call, and no heartbeat requested — the case in which the loop falls
through to its final step after executing the batch. -/
def c5ToolCompletion : Completion := ⟨[], [c5ToolCall], false, ⟨0, 0, 0⟩⟩

/-- A provider answering every call with `c5ToolCompletion`. -/
def c5ToolProvider : Provider := fun _ => .ok c5ToolCompletion

/-- The fresh agent state of the C5 witness run. -/
def c5wState : AgentState := AgentState.new [] (str "assistant") 0

/-- The batch outcome of executing `c5ToolCompletion`'s tool calls on
the witness state (state after the tool, trace, heartbeat bit). -/
def c5wBatchResult : AgentState × List Json × Bool :=
  match execToolBatch ToolExecutor.new 7 c5ToolCompletion.tool_calls
      c5wState [] false with
  | .ok r => r
  | _ => (c5wState, [], false)

/-- Witness state after the tool batch. -/
def c5wSt2 : AgentState := c5wBatchResult.1

/-- Witness tool trace after the batch. -/
def c5wTrace : List Json := c5wBatchResult.2.1

/-- Witness state after the batch plus the assistant envelope message
carrying the outgoing tool calls. -/
def c5wMid : AgentState :=
  if c5ToolCompletion.tool_calls.isEmpty then c5wState
  else { c5wSt2 with messages :=
    c5wSt2.messages.push ((Message.mkAssistant [] [] 7).with_tool_calls
      (c5ToolCompletion.tool_calls.map
        (fun tc => ⟨tc.id, tc.name, tc.arguments⟩))) }

/-- A provider answering every call with plain text `"hi"`. -/
def plainTextProvider : Provider := fun _ =>
  .ok ⟨str "hi", [], false, ⟨0, 0, 0⟩⟩

/-- The claim's round-trip composition
`import(from_json(to_json(export(config, state, schemas))))`, with the
abstract fresh-uuid and clock inputs of the import step made explicit. -/
def roundtrip (cfg : AgentConfig) (st : AgentState) (schemas : List ToolSchema)
    (now : Nat) (freshId : Str) (now2 : Nat) :
    RustResult (AgentConfig × AgentState) :=
  match AgentFile.export cfg st schemas now with
  | .ok af =>
    match AgentFile.from_json (AgentFile.to_json af) with
    | .ok af2 => AgentFile.import af2 freshId now2
    | .err e => .err e
    | .panic => .panic
  | .err e => .err e
  | .panic => .panic

/-- The 101 user messages of the C6 counterexample state. -/
def c6Messages : List Message :=
  (List.range 101).map (fun k => Message.mkUser [] [] k)

/-- An agent state holding 101 messages in a 200-capacity buffer. -/
def c6State : AgentState :=
  ⟨str "agent-1", str "assistant", 0, 0, Memory.new_chat,
    ⟨c6Messages, 200⟩, [], .obj []⟩

/-! ## Helper lemmas -/

theorem byteLen_replicate (n : Nat) (c : Char) :
    byteLen (List.replicate n c) = n * charSize c := by
  induction n with
  | zero => simp [byteLen]
  | succ k ih =>
    simp only [List.replicate_succ, byteLen, List.map_cons, List.sum_cons] at *
    rw [ih]; ring

/-! ## C1: the block-size invariant -/

/-- C1.  The claimed invariant `len(value) ≤ limit` is **not** preserved
by every operation: `set_block` on a fresh label installs the value with
no limit check, so a single `set_block("test", "x"×3000)` on an empty
(invariant-satisfying) memory succeeds and yields a reachable memory
whose block violates `len(value) ≤ limit` (3000 > 2000).  This matches
the repository's own failing expectation in
`tests/integration_test.rs::test_memory_limits`. -/
theorem C1_invariant_violated_by_set_block :
    MemOk Memory.new_basic ∧
    Memory.new_basic.set_block (str "test") (List.replicate 3000 'x') =
      .ok c1BadMemory ∧
    ¬ MemOk c1BadMemory := by
  refine ⟨by decide, rfl, fun h => ?_⟩
  have hb := h ⟨str "test", str "User-defined block",
    List.replicate 3000 'x', defaultLimit⟩ (List.mem_singleton.mpr rfl)
  unfold BlockOk at hb
  rw [byteLen_replicate, show charSize 'x' = 1 from by decide] at hb
  norm_num [defaultLimit] at hb

/-! ## C2: truncating append and UTF-8 boundaries -/

/-- C2.  `append` is **not** total: the Rust code truncates with the byte
slice `new_value[start..]`, and when the byte at `start` is a UTF-8
continuation byte the slice panics instead of rounding up to the next
scalar boundary.  Concretely, a default-limit block whose 1998-byte value
is 999 copies of the two-byte scalar `é` (a state obtainable through
`replace`, and satisfying `len ≤ limit`) panics on `append("éé")`:
the concatenation exceeds the limit and the byte the code slices at
falls in the middle of an `é`.  Concretely, for a block with value `""`
and limit `3` (blocks of any positive limit are public API via
`with_limit`; the same arithmetic bites at the default limit, e.g. a
1998-byte value of 999 `é`s appended with `"éé"`), `append("éé")` builds
the 5-byte `"\néé"` and slices at byte 2, inside the first `é`. -/
theorem C2_append_panics_mid_scalar :
    BlockOk ((MemoryBlock.new (str "mem") (str "d") (str "")).with_limit 3) ∧
    ((MemoryBlock.new (str "mem") (str "d") (str "")).with_limit 3).append
      (str "éé") = .panic := by
  constructor
  · decide
  · decide

/-! ## C3: oversize `set_memory_block` -/

/-- C3.  `set_memory_block("test", "x"×3000)` on a fresh default agent
does **not** return a `Memory` error: the label `test` does not exist
yet, so `set_block` takes its creation arm, which installs the oversize
value and returns `Ok`.  (The 1000-byte half of the claim does hold; it
is the oversize rejection that the code lacks, contradicting
`tests/integration_test.rs::test_memory_limits`.) -/
theorem C3_oversize_set_memory_block_returns_ok :
    ∃ st', setMemoryBlock (AgentState.new [] (str "assistant") 0)
        (str "test") (List.replicate 3000 'x') 1 = .ok st' ∧
      st'.memory.get_block (str "test") =
        some ⟨str "test", str "User-defined block",
          List.replicate 3000 'x', defaultLimit⟩ ∧
      byteLen (List.replicate 3000 'x') > defaultLimit := by
  refine ⟨_, rfl, rfl, ?_⟩
  rw [byteLen_replicate, show charSize 'x' = 1 from by decide]
  norm_num [defaultLimit]

/-! ## C8: context assembly and overflow -/

/-- C8 counterexample.  `build_prompt` uses the **floor** of
`len(system_prompt)/4` (Rust integer division), not the ceiling the
claim states: a 5-byte system prompt over an empty basic memory with no
messages sets `current_tokens = 1`, while the claim's
`⌈5/4⌉ = 2`. -/
theorem C8_counterexample_floor_not_ceil :
    ∃ p w, buildPrompt (ContextWindow.new 100) (str "xxxxx")
        Memory.new_basic [] 50 = .ok (p, w) ∧
      w.current_tokens = 1 ∧ (byteLen (str "xxxxx") + 3) / 4 = 2 ∧
      w.current_tokens ≠ (byteLen (str "xxxxx") + 3) / 4 := by
  exact ⟨_, _, rfl, rfl, by decide, by decide⟩

/-- C8 as amended (ceiling replaced by floor).  Whenever the memory
renders (no failing template), `build_prompt` sets
`current_tokens = ⌊len(system_prompt)/4⌋ + memory.token_estimate() +
Σ token_estimate` over the last `max_messages` messages, fails with
exactly `ContextOverflow{current, max}` when that count exceeds
`max_tokens`, and otherwise returns the assembled prompt with the count
stored in the window. -/
theorem C8_overflow_iff (w : ContextWindow) (sys : Str) (mem : Memory)
    (msgs : List Message) (maxM : Nat) (rendered : Str)
    (hr : mem.render = .ok rendered) :
    (byteLen sys / 4 + mem.token_estimate +
        ((msgs.drop (msgs.length - maxM)).map Message.token_estimate).sum >
        w.max_tokens →
      buildPrompt w sys mem msgs maxM =
        .err (.ContextOverflow
          (byteLen sys / 4 + mem.token_estimate +
            ((msgs.drop (msgs.length - maxM)).map Message.token_estimate).sum)
          w.max_tokens)) ∧
    (byteLen sys / 4 + mem.token_estimate +
        ((msgs.drop (msgs.length - maxM)).map Message.token_estimate).sum ≤
        w.max_tokens →
      ∃ p, buildPrompt w sys mem msgs maxM =
        .ok (p, ⟨w.max_tokens,
          byteLen sys / 4 + mem.token_estimate +
            ((msgs.drop (msgs.length - maxM)).map Message.token_estimate).sum⟩)) := by
  have hdrop : msgs.length - min msgs.length maxM = msgs.length - maxM := by
    omega
  constructor <;> intro h
  · simp only [buildPrompt, hr, ContextWindow.check_overflow, hdrop]
    rw [if_pos (by simpa using h)]
    rfl
  · simp only [buildPrompt, hr, ContextWindow.check_overflow, hdrop]
    rw [if_neg (by simpa using Nat.not_lt.mpr h)]
    exact ⟨_, rfl⟩

/-- C8 witness: the amended theorem applied at a concrete window, prompt,
memory and message list. -/
theorem C8_overflow_iff_witness :
    (byteLen (str "abcdefgh") / 4 + Memory.new_basic.token_estimate +
        (([] : List Message).map Message.token_estimate).sum > 1 →
      buildPrompt (ContextWindow.new 1) (str "abcdefgh")
        Memory.new_basic [] 10 =
        .err (.ContextOverflow
          (byteLen (str "abcdefgh") / 4 + Memory.new_basic.token_estimate +
            (([] : List Message).map Message.token_estimate).sum) 1)) ∧
    (byteLen (str "abcdefgh") / 4 + Memory.new_basic.token_estimate +
        (([] : List Message).map Message.token_estimate).sum ≤ 1 →
      ∃ p, buildPrompt (ContextWindow.new 1) (str "abcdefgh")
        Memory.new_basic [] 10 =
        .ok (p, ⟨1, byteLen (str "abcdefgh") / 4 +
          Memory.new_basic.token_estimate +
          (([] : List Message).map Message.token_estimate).sum⟩)) := by
  have h := C8_overflow_iff (ContextWindow.new 1) (str "abcdefgh")
    Memory.new_basic [] 10 (Memory.new_basic.render_default) rfl
  simpa using h

/-! ## C9: conversation summarization -/

set_option maxRecDepth 4000 in
/-- C9.  `summarize_messages` is **not** total for UTF-8 content: the
truncation slice `&content[..100]` is a byte slice, and it panics when
byte 100 of a long content falls inside a scalar.  A single user message
of 99 `a`s followed by `é` is 100 characters but 101 bytes, so the code
enters the truncation branch (the claim, counting characters, says it
must not) and panics slicing mid-`é`.  The second conjunct documents the
ASCII behaviour: truncation counts 100 **bytes** and appends the
three-character `"..."`. -/
theorem C9_summarize_panics_mid_scalar :
    summarizeMessages
      [Message.mkUser [] (List.replicate 99 'a' ++ ['é']) 0] 0 = none ∧
    summarizeMessages [Message.mkUser [] (List.replicate 150 'a') 0] 0 =
      some (str "Previous conversation summary:\n- User: " ++
        List.replicate 100 'a' ++ str "...\n") := by
  constructor <;> decide

/-! ## C10: the executor's `Clone` forgets registered tools -/

/-- C10.  The handwritten `Clone` impl of `ToolExecutor` rebuilds the map
from the five built-ins and drops every externally registered handler:
for any executor and any registered external tool whose name is not one
of the five built-in names, the clone equals the freshly seeded executor,
and executing that tool on the clone fails with
`ToolExecution("Unknown tool: {name}")`. -/
theorem C10_clone_loses_registered_tools (e : ToolExecutor) (name : Str)
    (run : Json → AgentState → Nat → RustResult (ToolResult × AgentState))
    (st : AgentState) (cid : Str) (args : Json) (now : Nat)
    (h : name ∉ [str "memory_replace", str "memory_append",
      str "archival_insert", str "archival_search",
      str "conversation_search"]) :
    ToolExecutor.cloneExec (e.register name (.external run)) =
      ToolExecutor.new ∧
    ToolExecutor.execute (ToolExecutor.cloneExec (e.register name (.external run)))
        ⟨cid, name, args⟩ st now =
      .err (.ToolExecution (str "Unknown tool: " ++ name)) := by
  refine ⟨rfl, ?_⟩
  simp only [List.mem_cons, List.mem_singleton, not_or] at h
  obtain ⟨h1, h2, h3, h4, h5, -⟩ := h
  simp [ToolExecutor.execute, ToolExecutor.cloneExec, ToolExecutor.new,
    List.find?, Ne.symm h1, Ne.symm h2, Ne.symm h3, Ne.symm h4, Ne.symm h5]

/-- C10 witness: a concrete external tool `my_tool` registered on the
default executor is absent from the clone, and running it there fails
with the unknown-tool error. -/
theorem C10_clone_loses_registered_tools_witness :
    ToolExecutor.cloneExec (ToolExecutor.new.register (str "my_tool")
      (.external (fun _ s _ => .ok (⟨true, .null, false, none⟩, s)))) =
      ToolExecutor.new ∧
    ToolExecutor.execute
        (ToolExecutor.cloneExec (ToolExecutor.new.register (str "my_tool")
          (.external (fun _ s _ => .ok (⟨true, .null, false, none⟩, s)))))
        ⟨str "call_0", str "my_tool", .null⟩ (AgentState.new [] (str "a") 0) 0 =
      .err (.ToolExecution (str "Unknown tool: " ++ str "my_tool")) :=
  C10_clone_loses_registered_tools ToolExecutor.new (str "my_tool")
    (fun _ s _ => .ok (⟨true, .null, false, none⟩, s))
    (AgentState.new [] (str "a") 0) (str "call_0") .null 0 (by decide)

/-! ## C7: the iteration cap -/

/-- Every abort path of the loop body returns the calls made so far, and
one iteration makes at most one provider call, so the loop makes at most
`calls + fuel` provider calls in total. -/
theorem replyLoop_calls_le (f : Provider) (cfg : AgentConfig) (now : Nat) :
    ∀ fuel st trace calls,
      (replyLoop f cfg now fuel st trace calls).2 ≤ calls + fuel := by
  intro fuel
  induction fuel with
  | zero => intro st trace calls; simp [replyLoop]
  | succ k ih =>
    intro st trace calls
    unfold replyLoop
    try dsimp only
    repeat' split
    all_goals try dsimp only [finalizeReply]
    all_goals first
      | omega
      | exact le_trans (ih _ _ _) (by omega)

set_option maxHeartbeats 1000000 in
/-- C7.  Every `step` and every `reply_only` makes at most
`MAX_ITERATIONS = 10` provider calls, for every provider behaviour,
configuration and state; and a run whose completions keep requesting
heartbeat tool calls fails after exactly 10 calls with
`ToolExecution("Maximum iterations exceeded")`. -/
theorem C7_at_most_ten_provider_calls :
    (∀ f cfg st input now, (step f cfg st input now).2 ≤ MAX_ITERATIONS ∧
      (replyOnly f cfg st now).2 ≤ MAX_ITERATIONS) ∧
    (isMaxIterErr (replyOnly heartbeatForeverProvider c7Config
        (AgentState.new [] (str "assistant") 0) 0).1 = true ∧
      (replyOnly heartbeatForeverProvider c7Config
        (AgentState.new [] (str "assistant") 0) 0).2 = MAX_ITERATIONS) := by
  constructor
  · intro f cfg st input now
    constructor
    · have h := replyLoop_calls_le f cfg now MAX_ITERATIONS
        (if !isInvalidEmptyMessage input && !(trimStr input).isEmpty then
          { st with
            messages := st.messages.push (Message.mkUser [] input now),
            updated_at := now }
         else st) [] 0
      simpa [step, replyOnly] using h
    · simpa [replyOnly] using replyLoop_calls_le f cfg now MAX_ITERATIONS st [] 0
  · constructor <;> decide

/-! ## C4 / C5: the final step of a loop iteration -/

/-- Pushing onto a buffer that is not full appends without eviction. -/
theorem push_of_not_full (buf : MessageBuffer) (m : Message)
    (h : buf.messages.length < buf.max_size) :
    (buf.push m).messages = buf.messages ++ [m] := by
  unfold MessageBuffer.push
  simp only []
  rw [List.length_append]
  simp only [List.length_singleton]
  rw [Nat.sub_eq_zero_of_le (by omega), List.drop_zero]

/-- A loop entered on a state whose prompt builds without triggering
summarization, with a first completion carrying no tool calls, finalizes
in its first iteration: one provider call, one appended `Assistant`
message carrying the completion text (or the fallback when that text is
empty), and `updated_at` stamped. -/
theorem replyOnly_no_tool_calls (f : Provider) (cfg : AgentConfig)
    (st : AgentState) (now : Nat) (c : Completion) (p : Str)
    (w : ContextWindow)
    (hf : f 0 = .ok c) (hc : c.tool_calls = [])
    (hbp : buildPrompt (ContextWindow.new cfg.max_context_tokens)
      cfg.system_prompt st.memory st.messages.messages cfg.max_messages =
      .ok (p, w))
    (hs : w.should_summarize = false) :
    replyOnly f cfg st now =
      (.ok (⟨if c.text.isEmpty then noResponseText else c.text, [], c.usage⟩,
        { st with
          messages := st.messages.push (Message.mkAssistant []
            (if c.text.isEmpty then noResponseText else c.text) now)
          updated_at := now }), 1) := by
  unfold replyOnly MAX_ITERATIONS
  show replyLoop f cfg now (9 + 1) st [] 0 = _
  unfold replyLoop
  rw [hbp]
  dsimp only
  rw [hs, hf]
  simp only [Bool.false_eq_true, if_false]
  rw [hc]
  simp [finalizeReply, noResponseText]

/-- C5 counterexample.  On a completion with empty text, no tool calls
and no heartbeat, the loop does **not** continue with another provider
call: it returns after exactly one provider call, appending and
returning the fallback text `"I have no response to share."` (the
distinctive second completion of the provider is never requested). -/
theorem C5_counterexample_empty_text_returns_fallback :
    ∃ r st', replyOnly c5Provider AgentConfig.default
        (AgentState.new [] (str "assistant") 0) 7 = (.ok (r, st'), 1) ∧
      r.text = noResponseText ∧
      st'.messages.messages.map Message.content = [noResponseText] := by
  exact ⟨_, _, rfl, rfl, rfl⟩

/-- A loop iteration in which no heartbeat continuation applies
finalizes: first completion with no heartbeat bit whose tool batch (run
on the entry state with an empty trace) succeeds without any handler
requesting a heartbeat.  This covers both a completion without tool
calls (the batch is the identity and the envelope is skipped) and a
pure tool-calling completion whose batch ran.  `stMid` is the state
after the batch and, when tool calls were present, the appended
assistant envelope message carrying them. -/
theorem replyOnly_finalizes_iteration (f : Provider) (cfg : AgentConfig)
    (st : AgentState) (now : Nat) (c : Completion) (p : Str)
    (w : ContextWindow) (st2 : AgentState) (trace2 : List Json)
    (stMid : AgentState)
    (hf : f 0 = .ok c)
    (hbp : buildPrompt (ContextWindow.new cfg.max_context_tokens)
      cfg.system_prompt st.memory st.messages.messages cfg.max_messages =
      .ok (p, w))
    (hs : w.should_summarize = false)
    (hnohb : c.request_heartbeat = false)
    (hbatch : execToolBatch ToolExecutor.new now c.tool_calls st [] false =
      .ok (st2, trace2, false))
    (hmid : stMid = (if c.tool_calls.isEmpty then st
      else { st2 with messages :=
        st2.messages.push ((Message.mkAssistant [] [] now).with_tool_calls
          (c.tool_calls.map (fun tc => ⟨tc.id, tc.name, tc.arguments⟩))) })) :
    replyOnly f cfg st now =
      (.ok (⟨if c.text.isEmpty then noResponseText else c.text, trace2,
        c.usage⟩,
        { stMid with
          messages := stMid.messages.push (Message.mkAssistant []
            (if c.text.isEmpty then noResponseText else c.text) now)
          updated_at := now }), 1) := by
  subst hmid
  unfold replyOnly MAX_ITERATIONS
  show replyLoop f cfg now (9 + 1) st [] 0 = _
  unfold replyLoop
  rw [hbp]
  dsimp only
  rw [hs, hf]
  simp only [Bool.false_eq_true, if_false]
  cases hc : c.tool_calls with
  | nil =>
    rw [hc] at hbatch
    simp only [execToolBatch, RustResult.ok.injEq, Prod.mk.injEq] at hbatch
    obtain ⟨h1, h2, -⟩ := hbatch
    subst h1
    subst h2
    simp [finalizeReply, noResponseText]
  | cons tc rest =>
    rw [hc] at hbatch
    simp only [List.isEmpty_cons, Bool.false_eq_true, if_false]
    rw [hbatch]
    dsimp only
    rw [hnohb]
    simp [finalizeReply, noResponseText]

/-- C5 as amended.  In an iteration in which no heartbeat continuation
applies — the completion requests no heartbeat and its tool batch (empty
or not) executes without any handler requesting one — the loop does not
re-prompt: after the single provider call it appends an `Assistant`
message carrying the completion text when that is non-empty (updating
`updated_at` and returning that text with the accumulated tool trace and
usage), and when the text is empty it appends and returns the fallback
`"I have no response to share."` instead of continuing the loop.  This
covers both the no-tool-call completion and the pure tool-calling
empty-text completion, where `stMid` is the state after the tool-result
messages and the assistant envelope.  (Prompt building succeeds without
summarization, and the buffer has room for the final message.) -/
theorem C5_empty_text_finalizes (f : Provider) (cfg : AgentConfig)
    (st : AgentState) (now : Nat) (c : Completion) (p : Str)
    (w : ContextWindow) (st2 : AgentState) (trace2 : List Json)
    (stMid : AgentState)
    (hf : f 0 = .ok c)
    (hbp : buildPrompt (ContextWindow.new cfg.max_context_tokens)
      cfg.system_prompt st.memory st.messages.messages cfg.max_messages =
      .ok (p, w))
    (hs : w.should_summarize = false)
    (hnohb : c.request_heartbeat = false)
    (hbatch : execToolBatch ToolExecutor.new now c.tool_calls st [] false =
      .ok (st2, trace2, false))
    (hmid : stMid = (if c.tool_calls.isEmpty then st
      else { st2 with messages :=
        st2.messages.push ((Message.mkAssistant [] [] now).with_tool_calls
          (c.tool_calls.map (fun tc => ⟨tc.id, tc.name, tc.arguments⟩))) }))
    (hroom : stMid.messages.messages.length < stMid.messages.max_size) :
    ∃ r st', replyOnly f cfg st now = (.ok (r, st'), 1) ∧
      r.text = (if c.text.isEmpty then noResponseText else c.text) ∧
      (¬c.text.isEmpty = true → r.text = c.text) ∧
      r.usage = c.usage ∧
      r.tool_trace = trace2 ∧
      st'.messages.messages =
        stMid.messages.messages ++ [Message.mkAssistant [] r.text now] ∧
      st'.updated_at = now := by
  refine ⟨_, _, replyOnly_finalizes_iteration f cfg st now c p w st2 trace2
    stMid hf hbp hs hnohb hbatch hmid, rfl, ?_, rfl, rfl, ?_, rfl⟩
  · intro h
    simp only [Bool.not_eq_true] at h
    simp [h]
  · exact push_of_not_full stMid.messages _ hroom

/-- C5 witness: the amended theorem applied to the previously uncovered
central case — a pure tool-calling completion with empty text, one
successful `memory_replace` call, and no heartbeat — on a fresh default
agent.  The loop executes the batch and then returns the fallback after
its single provider call. -/
theorem C5_empty_text_finalizes_witness :
    ∃ r st', replyOnly c5ToolProvider AgentConfig.default c5wState 7 =
        (.ok (r, st'), 1) ∧
      r.text = (if c5ToolCompletion.text.isEmpty then noResponseText
        else c5ToolCompletion.text) ∧
      (¬c5ToolCompletion.text.isEmpty = true → r.text = c5ToolCompletion.text) ∧
      r.usage = c5ToolCompletion.usage ∧
      r.tool_trace = c5wTrace ∧
      st'.messages.messages =
        c5wMid.messages.messages ++ [Message.mkAssistant [] r.text 7] ∧
      st'.updated_at = 7 :=
  C5_empty_text_finalizes c5ToolProvider AgentConfig.default c5wState 7
    c5ToolCompletion _ _ c5wSt2 c5wTrace c5wMid rfl rfl (by decide) rfl
    (by rfl) (by rfl) (by decide)

/-- C4 counterexample.  The claim's trivial set does not match the code:
the regex in `is_invalid_empty_message` accepts only empty, whitespace
and quote-character inputs — `"。"` (and `". "`) are **substantive** to
the code, so `step("。")` appends a `User` message before the assistant
reply, where the claim requires that no user message be appended. -/
theorem C4_counterexample_ideographic_stop_appends_user :
    ∃ r st', step plainTextProvider AgentConfig.default
        (AgentState.new [] (str "assistant") 0) (str "。") 5 =
        (.ok (r, st'), 1) ∧
      st'.messages.messages.map Message.role = [.User, .Assistant] ∧
      st'.messages.messages.map Message.content = [str "。", str "hi"] := by
  exact ⟨_, _, rfl, rfl, rfl⟩

/-- C4 as amended.  The code's trivial set is: empty, whitespace-only,
and quote-only inputs (`"`, `'`, U+201C, U+201D, possibly with
surrounding whitespace) — `"。"` and `". "` are substantive.  For every
input in that set, `step` appends no user message but still runs the
loop, returning non-empty text and appending exactly one `Assistant`
message (stated for an iteration that finalizes: first completion
without tool calls, prompt building fine, buffer not full). -/
theorem C4_trivial_input_autonomous_reply (f : Provider)
    (cfg : AgentConfig) (st : AgentState) (now : Nat) (input : Str)
    (c : Completion) (p : Str) (w : ContextWindow)
    (ht : isInvalidEmptyMessage input = true)
    (hf : f 0 = .ok c) (hc : c.tool_calls = [])
    (hbp : buildPrompt (ContextWindow.new cfg.max_context_tokens)
      cfg.system_prompt st.memory st.messages.messages cfg.max_messages =
      .ok (p, w))
    (hs : w.should_summarize = false)
    (hroom : st.messages.messages.length < st.messages.max_size) :
    (isInvalidEmptyMessage (str "") = true ∧
      isInvalidEmptyMessage (str "   ") = true ∧
      isInvalidEmptyMessage (str "。") = false ∧
      isInvalidEmptyMessage (str ". ") = false) ∧
    ∃ r st', step f cfg st input now = (.ok (r, st'), 1) ∧
      r.text ≠ [] ∧
      st'.messages.messages =
        st.messages.messages ++ [Message.mkAssistant [] r.text now] := by
  refine ⟨⟨by decide, by decide, by decide, by decide⟩, ?_⟩
  have hstep : step f cfg st input now = replyOnly f cfg st now := by
    unfold step
    rw [ht]
    simp
  rw [hstep, replyOnly_no_tool_calls f cfg st now c p w hf hc hbp hs]
  refine ⟨_, _, rfl, ?_, push_of_not_full st.messages _ hroom⟩
  cases htext : c.text with
  | nil => simp [noResponseText, str]
  | cons a as => simp [htext]

/-- C4 witness: the amended theorem applied to the whitespace input
`"   "` on a fresh default agent with a plain-text provider. -/
theorem C4_trivial_input_autonomous_reply_witness :
    (isInvalidEmptyMessage (str "") = true ∧
      isInvalidEmptyMessage (str "   ") = true ∧
      isInvalidEmptyMessage (str "。") = false ∧
      isInvalidEmptyMessage (str ". ") = false) ∧
    ∃ r st', step plainTextProvider AgentConfig.default
        (AgentState.new [] (str "assistant") 0) (str "   ") 3 =
        (.ok (r, st'), 1) ∧
      r.text ≠ [] ∧
      st'.messages.messages =
        (AgentState.new [] (str "assistant") 0).messages.messages ++
          [Message.mkAssistant [] r.text 3] :=
  C4_trivial_input_autonomous_reply plainTextProvider AgentConfig.default
    (AgentState.new [] (str "assistant") 0) 3 (str "   ")
    ⟨str "hi", [], false, ⟨0, 0, 0⟩⟩ _ _ (by decide) rfl rfl rfl
    (by decide) (by decide)

/-! ## C6: round-trip lemmas for the serde layer -/

theorem str_beq (a b : String) : (str a == str b) = (a == b) := by
  by_cases h : a = b
  · subst h; simp
  · have hs : str a ≠ str b := fun hh => h (String.ext hh)
    simp [h, hs]

theorem optMapList_of_inv (enc : α → Json) (dec : Json → Option α)
    (h : ∀ x, dec (enc x) = some x) :
    ∀ xs : List α, optMapList dec (xs.map enc) = some xs := by
  intro xs
  induction xs with
  | nil => rfl
  | cons x xs ih => simp [optMapList, h, ih]

theorem dec_enc_tci (t : ToolCallInfo) :
    decodeToolCallInfo (encodeToolCallInfo t) = some t := by
  cases t; rfl

set_option maxHeartbeats 1000000 in
theorem dec_enc_message (m : Message) :
    decodeMessage (encodeMessage m) = some m := by
  obtain ⟨i, r, c, tcs, tcid, ts, md⟩ := m
  cases tcs with
  | none =>
    cases tcid <;> cases r <;> rfl
  | some cs =>
    have h := optMapList_of_inv _ _ dec_enc_tci cs
    cases tcid <;> cases r <;>
      · unfold decodeMessage encodeMessage
        dsimp only
        simp only [reqField, Json.field, List.lookup, decodeOptWith,
          decodeList, Json.asArr, Json.asStr, Json.asNat, Json.asObjFields,
          decodeRole, str_beq]
        simp only [String.reduceBEq]
        try dsimp only
        simp only [Option.some_bind, MessageRole.jsonName, reduceIte, h]
        try rfl

theorem dec_enc_strlist (xs : List Str) :
    decodeStrList (encodeStrList xs) = some xs := by
  simp [decodeStrList, decodeList, encodeStrList, Json.asArr,
    optMapList_of_inv Json.str Json.asStr (fun _ => rfl) xs]

theorem dec_enc_toolSchema (s : ToolSchema) :
    decodeToolSchema (encodeToolSchema s) = some s := by
  obtain ⟨n, d, pms, req⟩ := s
  unfold decodeToolSchema encodeToolSchema
  dsimp only
  simp only [reqField, Json.field, List.lookup, str_beq]
  simp only [String.reduceBEq]
  try dsimp only
  simp only [Option.some_bind, dec_enc_strlist]
  try rfl

theorem dec_enc_blockExport (b : BlockExport) :
    decodeBlockExport (encodeBlockExport b) = some b := by
  cases b; rfl

theorem dec_enc_toolRule (r : ToolRule) :
    decodeToolRule (encodeToolRule r) = some r := by
  obtain ⟨n, cs⟩ := r
  unfold decodeToolRule encodeToolRule
  dsimp only
  simp only [reqField, Json.field, List.lookup, str_beq]
  simp only [String.reduceBEq]
  try dsimp only
  simp only [Option.some_bind, dec_enc_strlist]
  try rfl

theorem decodeOptWith_some_ne_null (dec : Json → Option α) (v : Json)
    (hv : v ≠ .null) (a : α) (hd : dec v = some a) :
    decodeOptWith dec (some v) = some (some a) := by
  cases v <;> simp_all [decodeOptWith]

theorem dec_enc_memoryExport (m : MemoryExport) :
    decodeMemoryExport (encodeMemoryExport m) = some m := by
  obtain ⟨mc, bs, tpl⟩ := m
  cases tpl <;>
    · unfold decodeMemoryExport encodeMemoryExport
      dsimp only [jsonOptField, Option.map]
      simp only [reqField, Json.field, List.lookup, decodeOptWith, str_beq]
      simp only [String.reduceBEq]
      try dsimp only
      simp only [Option.some_bind, dec_enc_strlist]
      try rfl

theorem dec_enc_modelConfig (m : ModelConfig) :
    decodeModelConfig (encodeModelConfig m) = some m := by
  obtain ⟨ep, cw, tp, mt⟩ := m
  cases tp <;> cases mt <;>
    · unfold decodeModelConfig encodeModelConfig
      dsimp only [jsonOptField, Option.map]
      simp only [reqField, Json.field, List.lookup, decodeOptWith,
        Json.asStr, Json.asNat, Json.asInt, str_beq]
      simp only [String.reduceBEq]
      try dsimp only
      simp only [Option.some_bind]
      try rfl

theorem dec_enc_agentStateExport (s : AgentStateExport)
    (hm : ∀ v, s.metadata = some v → v ≠ .null) :
    decodeAgentStateExport (encodeAgentStateExport s) = some s := by
  obtain ⟨uid, ca, ua, tools, rules, mem, md⟩ := s
  have hmem := dec_enc_memoryExport mem
  cases uid <;> cases rules with
  | _ =>
    cases md with
    | none =>
      first
      | (unfold decodeAgentStateExport encodeAgentStateExport
         dsimp only [jsonOptField, Option.map, Option.elim]
         simp only [reqField, Json.field, List.lookup, decodeOptWith,
           Json.asStr, Json.asNat, str_beq]
         simp only [String.reduceBEq]
         try dsimp only
         simp only [Option.some_bind, dec_enc_strlist, hmem,
           optMapList_of_inv _ _ dec_enc_toolRule, decodeList, Json.asArr]
         try rfl)
    | some v =>
      have hv : v ≠ .null := hm v rfl
      have hopt := decodeOptWith_some_ne_null (fun j => some j) v hv v rfl
      first
      | (unfold decodeAgentStateExport encodeAgentStateExport
         dsimp only [jsonOptField, Option.map, Option.elim]
         simp only [reqField, Json.field, List.lookup, decodeOptWith,
           Json.asStr, Json.asNat, str_beq]
         simp only [String.reduceBEq]
         try dsimp only
         simp only [Option.some_bind, dec_enc_strlist, hmem,
           optMapList_of_inv _ _ dec_enc_toolRule, decodeList, Json.asArr]
         try simp only [hopt]
         try rfl)

set_option maxHeartbeats 1000000 in
theorem dec_enc_agentExport (a : AgentExport)
    (hm : ∀ v, a.agent_state.metadata = some v → v ≠ .null) :
    decodeAgentExport (encodeAgentExport a) = some a := by
  obtain ⟨i, n, sp, mbs, ast, msgs, mdl⟩ := a
  have hast := dec_enc_agentStateExport ast hm
  have hmdl := dec_enc_modelConfig mdl
  have hmsgs := optMapList_of_inv _ _ dec_enc_message msgs
  unfold decodeAgentExport encodeAgentExport
  dsimp only
  simp only [reqField, Json.field, List.lookup, Json.asStr, Json.asNat,
    decodeList, Json.asArr, str_beq]
  simp only [String.reduceBEq]
  try dsimp only
  simp only [Option.some_bind, hast, hmdl, hmsgs]
  try rfl

theorem dec_enc_toolExport (t : ToolExport) :
    decodeToolExport (encodeToolExport t) = some t := by
  obtain ⟨i, n, sch, sc, stp⟩ := t
  have hs := dec_enc_toolSchema sch
  cases sc <;>
    · unfold decodeToolExport encodeToolExport
      dsimp only [Option.elim]
      simp only [reqField, Json.field, List.lookup, decodeOptWith,
        Json.asStr, str_beq]
      simp only [String.reduceBEq]
      try dsimp only
      simp only [Option.some_bind, hs]
      try rfl

theorem dec_enc_agentFileMetadata (m : AgentFileMetadata) :
    decodeAgentFileMetadata (encodeAgentFileMetadata m) = some m := by
  obtain ⟨lv, et, es, ad⟩ := m
  cases ad <;>
    · unfold decodeAgentFileMetadata encodeAgentFileMetadata
      dsimp only [jsonOptField, Option.map]
      simp only [reqField, Json.field, List.lookup, decodeOptWith,
        Json.asStr, Json.asNat, Json.asObjFields, str_beq]
      simp only [String.reduceBEq]
      try dsimp only
      simp only [Option.some_bind]
      try rfl

set_option maxHeartbeats 1000000 in
/-- Parsing the emitted JSON of an exported agent file recovers the
document exactly (provided the state's metadata value is not JSON
`null`, which serde's optional-field handling would read back as
absent). -/
theorem from_json_to_json_export (cfg : AgentConfig) (st : AgentState)
    (schemas : List ToolSchema) (now : Nat) (hmeta : st.metadata ≠ .null) :
    AgentFile.from_json (AgentFile.to_json (AgentFile.exportV1 cfg st schemas now)) =
      .ok (AgentFile.exportV1 cfg st schemas now) := by
  have hae : decodeAgentExport (encodeAgentExport
      ⟨st.id, st.name, cfg.system_prompt, cfg.max_messages,
        ⟨none, st.created_at, st.updated_at, schemas.map ToolSchema.name,
          none,
          ⟨if st.memory.isChat then str "ChatMemory" else str "BasicMemory",
            st.memory.blocks.map (fun b => str "block_" ++ b.label), none⟩,
          some st.metadata⟩,
        st.messages.messages,
        ⟨cfg.model, cfg.max_context_tokens, some cfg.temperature, none⟩⟩) =
      some _ := dec_enc_agentExport _ (fun v hv => by
        simp only [Option.some_inj] at hv
        exact hv ▸ hmeta)
  have hblocks := optMapList_of_inv _ _ dec_enc_blockExport
    (st.memory.blocks.map toExportB)
  have htools := optMapList_of_inv _ _ dec_enc_toolExport
    (schemas.map (fun s =>
      ToolExport.mk (str "tool_" ++ s.name) s.name s none (str "builtin")))
  unfold AgentFile.from_json decodeAgentFileV1 AgentFile.to_json
    AgentFile.exportV1
  dsimp only [jsonOptField, Option.map]
  simp only [reqField, Json.field, List.lookup, decodeOptWith, decodeList,
    Json.asArr, Json.asStr, str_beq]
  simp only [String.reduceBEq]
  try dsimp only
  simp only [Option.some_bind, optMapList, hae, hblocks, htools,
    dec_enc_agentFileMetadata]
  try rfl

/-! ## C6: import-side lemmas -/

theorem comp_replace_hit (x : MemoryBlock) :
    ((fun c : MemoryBlock => decide (c.label = x.label)) ∘
      (fun c => if c.label = x.label then x else c)) =
    (fun c : MemoryBlock => decide (c.label = x.label)) := by
  funext c
  by_cases h : c.label = x.label <;> simp [h]

theorem comp_replace_miss (x : MemoryBlock) (lab : Str) :
    ((fun c : MemoryBlock => decide (c.label = lab)) ∘
      (fun c => if c.label = x.label then x else c)) =
    (fun c : MemoryBlock => decide (c.label = lab)) := by
  funext c
  by_cases h : c.label = x.label
  · simp [h]
  · simp [h]

theorem find?_map_replace_hit (l : List MemoryBlock) (x : MemoryBlock) :
    (l.map (fun c => if c.label = x.label then x else c)).find?
      (fun c => c.label = x.label) =
    if (l.find? (fun c => c.label = x.label)).isSome then some x else none := by
  rw [List.find?_map, comp_replace_hit]
  cases hf : l.find? (fun c => decide (c.label = x.label)) with
  | none => rfl
  | some c =>
    have hc : c.label = x.label := by simpa using List.find?_some hf
    simp [hc]

theorem find?_map_replace_miss (l : List MemoryBlock) (x : MemoryBlock)
    (lab : Str) (hne : lab ≠ x.label) :
    (l.map (fun c => if c.label = x.label then x else c)).find?
      (fun c => c.label = lab) =
    l.find? (fun c => c.label = lab) := by
  rw [List.find?_map, comp_replace_miss x lab]
  cases hf : l.find? (fun c => decide (c.label = lab)) with
  | none => rfl
  | some c =>
    have hc : c.label = lab := by simpa using List.find?_some hf
    have hcx : ¬(c.label = x.label) := fun hh => hne (hc ▸ hh)
    simp [hcx]

theorem insert_get_eq (m : Memory) (x : MemoryBlock) :
    (m.insertBlock x.label x).get_block x.label = some x := by
  unfold Memory.insertBlock Memory.get_block
  by_cases hf : (m.blocks.find? (fun c => c.label = x.label)).isSome
  · rw [if_pos hf]
    dsimp only
    rw [find?_map_replace_hit]
    simp [hf]
  · rw [if_neg hf]
    dsimp only
    have hnone : m.blocks.find? (fun c => decide (c.label = x.label)) = none :=
      Option.not_isSome_iff_eq_none.mp hf
    rw [List.find?_append, hnone]
    simp [List.find?]

theorem insert_get_ne (m : Memory) (x : MemoryBlock) (lab : Str)
    (h : lab ≠ x.label) :
    (m.insertBlock x.label x).get_block lab = m.get_block lab := by
  unfold Memory.insertBlock Memory.get_block
  by_cases hf : (m.blocks.find? (fun c => c.label = x.label)).isSome
  · rw [if_pos hf]
    dsimp only
    exact find?_map_replace_miss m.blocks x lab h
  · rw [if_neg hf]
    dsimp only
    rw [List.find?_append]
    have : (List.find? (fun c => decide (c.label = lab)) [x]) = none := by
      simp [List.find?, decide_eq_false (fun hh : x.label = lab => h hh.symm)]
    rw [this]
    cases m.blocks.find? (fun c => decide (c.label = lab)) <;> rfl

theorem fold_insert_preserve (bs : List MemoryBlock) (m : Memory) (lab : Str)
    (h : ∀ b ∈ bs, b.label ≠ lab) :
    (bs.foldl (fun mem x => mem.insertBlock x.label x) m).get_block lab =
      m.get_block lab := by
  induction bs generalizing m with
  | nil => rfl
  | cons b t ih =>
    simp only [List.foldl_cons]
    rw [ih _ (fun x hx => h x (List.mem_cons_of_mem b hx)),
      insert_get_ne m b lab (fun hh => h b (List.mem_cons_self b t) hh.symm)]

theorem fold_insert_get (bs : List MemoryBlock) (m : Memory)
    (hnd : (bs.map MemoryBlock.label).Nodup) (b : MemoryBlock) (hb : b ∈ bs) :
    (bs.foldl (fun mem x => mem.insertBlock x.label x) m).get_block b.label =
      some b := by
  induction bs generalizing m with
  | nil => cases hb
  | cons h t ih =>
    simp only [List.map_cons, List.nodup_cons] at hnd
    rcases List.mem_cons.mp hb with hbh | hbt
    · subst hbh
      simp only [List.foldl_cons]
      rw [fold_insert_preserve t _ b.label
        (fun x hx hh => hnd.1 (hh ▸ List.mem_map_of_mem MemoryBlock.label hx)),
        insert_get_eq]
    · simp only [List.foldl_cons]
      exact ih _ hnd.2 hbt

theorem find_export (all : List MemoryBlock)
    (hnd : (all.map MemoryBlock.label).Nodup) (b : MemoryBlock)
    (hb : b ∈ all) :
    (all.map toExportB).find? (fun be => be.id = str "block_" ++ b.label) =
      some (toExportB b) := by
  induction all with
  | nil => cases hb
  | cons h t ih =>
    simp only [List.map_cons, List.nodup_cons] at hnd
    rcases List.mem_cons.mp hb with hbh | hbt
    · subst hbh
      simp [List.find?, toExportB]
    · have hne : h.label ≠ b.label := fun hh =>
        hnd.1 (hh ▸ List.mem_map_of_mem MemoryBlock.label hbt)
      have hne2 : ¬(str "block_" ++ h.label = str "block_" ++ b.label) :=
        fun hh => hne (List.append_cancel_left hh)
      simp only [List.map_cons, List.find?, toExportB]
      simp only [decide_eq_false hne2]
      exact ih hnd.2 hbt

theorem state_fold_memory (bs : List MemoryBlock) (st : AgentState) :
    bs.foldl (fun s b =>
        { s with memory := s.memory.insertBlock b.label b }) st =
      { st with memory :=
        bs.foldl (fun m b => m.insertBlock b.label b) st.memory } := by
  induction bs generalizing st with
  | nil => rfl
  | cons b t ih => simp only [List.foldl_cons]; rw [ih]

theorem state_fold_messages (ms : List Message) (st : AgentState) :
    ms.foldl (fun s msg =>
        { s with messages := s.messages.push msg }) st =
      { st with messages := ms.foldl MessageBuffer.push st.messages } := by
  induction ms generalizing st with
  | nil => rfl
  | cons m t ih => simp only [List.foldl_cons]; rw [ih]

theorem push_max_size (buf : MessageBuffer) (m : Message) :
    (buf.push m).max_size = buf.max_size := rfl

theorem push_len (buf : MessageBuffer) (m : Message) :
    (buf.push m).messages.length =
      min (buf.messages.length + 1) buf.max_size := by
  unfold MessageBuffer.push
  simp only [List.length_drop, List.length_append, List.length_singleton]
  omega

theorem fold_push_all (ms : List Message) (buf : MessageBuffer)
    (h : buf.messages.length + ms.length ≤ buf.max_size) :
    (ms.foldl MessageBuffer.push buf).messages = buf.messages ++ ms := by
  induction ms generalizing buf with
  | nil => simp
  | cons m t ih =>
    simp only [List.foldl_cons]
    have hlt : buf.messages.length < buf.max_size := by
      simp only [List.length_cons] at h; omega
    have hp := push_of_not_full buf m hlt
    rw [ih (buf.push m) (by
      rw [push_max_size, hp, List.length_append, List.length_singleton]
      simp only [List.length_cons] at h
      omega), hp]
    simp

theorem fold_push_len (ms : List Message) (buf : MessageBuffer)
    (h0 : buf.messages.length ≤ buf.max_size) :
    (ms.foldl MessageBuffer.push buf).messages.length =
      min (buf.messages.length + ms.length) buf.max_size := by
  induction ms generalizing buf with
  | nil => simp; omega
  | cons m t ih =>
    simp only [List.foldl_cons]
    rw [ih (buf.push m) (by rw [push_len, push_max_size]; omega)]
    rw [push_len, push_max_size]
    simp only [List.length_cons]
    omega

theorem import_fold_eq (all : List MemoryBlock)
    (hnd : (all.map MemoryBlock.label).Nodup) :
    ∀ (bs : List MemoryBlock), (∀ b ∈ bs, b ∈ all) → ∀ (st : AgentState),
    (bs.map (fun b => str "block_" ++ b.label)).foldl
      (fun s block_id =>
        match (all.map toExportB).find? (fun be => be.id = block_id) with
        | some be =>
          { s with memory :=
              s.memory.insertBlock be.label (MemoryBlock.mk be.label be.description be.value be.limit) }
        | none => s) st =
    bs.foldl (fun s b =>
      { s with memory := s.memory.insertBlock b.label b }) st := by
  intro bs
  induction bs with
  | nil => intro _ st; rfl
  | cons b t ih =>
    intro hsub st
    simp only [List.map_cons, List.foldl_cons]
    rw [find_export all hnd b (hsub b (List.mem_cons_self b t))]
    exact ih (fun x hx => hsub x (List.mem_cons_of_mem b hx)) _

set_option maxHeartbeats 1000000 in
/-- C6 as amended.  The round trip preserves agent id, name, system
prompt, `created_at`, `updated_at`, metadata, every block of the
original state (by label, with description, value and limit), and the
full message array — **provided** the original state holds at most 100
messages (import pushes the array into a fresh 100-capacity buffer,
truncating anything longer), its block labels are distinct (they are,
coming from a map), and its metadata is not JSON `null` (which the
optional-field codec reads back as absent). -/
theorem C6_roundtrip_preserves (cfg : AgentConfig) (st : AgentState)
    (schemas : List ToolSchema) (now : Nat) (freshId : Str) (now2 : Nat)
    (hmeta : st.metadata ≠ .null)
    (hnd : (st.memory.blocks.map MemoryBlock.label).Nodup)
    (hlen : st.messages.messages.length ≤ 100) :
    ∃ cfg2 st2, roundtrip cfg st schemas now freshId now2 = .ok (cfg2, st2) ∧
      st2.id = st.id ∧ st2.name = st.name ∧
      cfg2.system_prompt = cfg.system_prompt ∧
      st2.created_at = st.created_at ∧ st2.updated_at = st.updated_at ∧
      st2.metadata = st.metadata ∧
      st2.messages.messages = st.messages.messages ∧
      ∀ b ∈ st.memory.blocks, st2.memory.get_block b.label = some b := by
  unfold roundtrip AgentFile.export
  dsimp only
  rw [from_json_to_json_export cfg st schemas now hmeta]
  dsimp only
  unfold AgentFile.import AgentFile.exportV1
  dsimp only [List.head?]
  rw [import_fold_eq st.memory.blocks hnd st.memory.blocks (fun _ h => h),
    state_fold_memory, state_fold_messages]
  refine ⟨_, _, rfl, rfl, rfl, rfl, rfl, rfl, rfl, ?_, ?_⟩
  · exact fold_push_all st.messages.messages ⟨[], 100⟩ (by simpa using hlen)
  · intro b hb
    exact fold_insert_get st.memory.blocks _ hnd b hb

/-- C6 witness: the amended theorem applied to a fresh default-config
agent state (chat memory defaults, no messages, `{}` metadata). -/
theorem C6_roundtrip_preserves_witness :
    ∃ cfg2 st2, roundtrip AgentConfig.default
        (AgentState.new (str "id-0") (str "assistant") 4) [] 9
        (str "fresh") 11 = .ok (cfg2, st2) ∧
      st2.id = (AgentState.new (str "id-0") (str "assistant") 4).id ∧
      st2.name = (AgentState.new (str "id-0") (str "assistant") 4).name ∧
      cfg2.system_prompt = AgentConfig.default.system_prompt ∧
      st2.created_at = (AgentState.new (str "id-0") (str "assistant") 4).created_at ∧
      st2.updated_at = (AgentState.new (str "id-0") (str "assistant") 4).updated_at ∧
      st2.metadata = (AgentState.new (str "id-0") (str "assistant") 4).metadata ∧
      st2.messages.messages =
        (AgentState.new (str "id-0") (str "assistant") 4).messages.messages ∧
      ∀ b ∈ (AgentState.new (str "id-0") (str "assistant") 4).memory.blocks,
        st2.memory.get_block b.label = some b :=
  C6_roundtrip_preserves AgentConfig.default
    (AgentState.new (str "id-0") (str "assistant") 4) [] 9 (str "fresh") 11
    (fun h => Json.noConfusion h) (by decide) (by decide)

/-- C6 counterexample.  The claim quantifies over states "with any
number of messages", but `import` pushes the exported message array into
a fresh `MessageBuffer::new(100)`: a state with 101 messages round-trips
to a state with only the most recent 100, so the full message array is
not preserved. -/
theorem C6_counterexample_import_truncates_messages :
    c6State.messages.messages.length = 101 ∧
    ∃ cfg2 st2, roundtrip AgentConfig.default c6State [] 0 (str "fresh") 1 =
        .ok (cfg2, st2) ∧
      st2.messages.messages.length = 100 ∧
      st2.messages.messages ≠ c6State.messages.messages := by
  have hlen : c6State.messages.messages.length = 101 := by
    simp [c6State, c6Messages]
  refine ⟨hlen, ?_⟩
  unfold roundtrip AgentFile.export
  dsimp only
  rw [from_json_to_json_export AgentConfig.default c6State [] 0
    (fun h => Json.noConfusion h)]
  dsimp only
  unfold AgentFile.import AgentFile.exportV1
  dsimp only [List.head?]
  rw [import_fold_eq c6State.memory.blocks (by decide) c6State.memory.blocks
      (fun _ h => h),
    state_fold_memory, state_fold_messages]
  have hflen : (c6State.messages.messages.foldl MessageBuffer.push
      (⟨[], 100⟩ : MessageBuffer)).messages.length = 100 := by
    rw [fold_push_len c6State.messages.messages ⟨[], 100⟩ (by decide), hlen]
    decide
  refine ⟨_, _, rfl, hflen, ?_⟩
  intro h
  have h2 : (c6State.messages.messages.foldl MessageBuffer.push
      (⟨[], 100⟩ : MessageBuffer)).messages.length =
      c6State.messages.messages.length := congrArg List.length h
  rw [hflen, hlen] at h2
  omega
